import Mathlib

/-!
Verification of the frame-scheduling, swapchain-lifecycle and device-selection
logic of the Vulkan hello-triangle renderer (`src/main.cpp`).

The per-frame protocol (`drawFrame`, `recreateSwapChain`, `createSyncObjects`)
is embedded as a state machine over an explicit `FrameState`, with the
asynchronous GPU completion of a submitted command buffer modelled through a
three-state fence; each tick consumes a `TickInput` describing the results the
Vulkan calls return on that tick and produces the list of observable `Event`s
the tick performs, in program order.  The pure helpers
(`selectSwapPresentMode`, `selectSwapExtent`, `isDeviceSuitable`,
`selectPhysicalDevice`) are translated directly.
-/

namespace Vulkan

/-- The `VkResult` values the frame loop inspects: `VK_SUCCESS`,
`VK_SUBOPTIMAL_KHR`, `VK_ERROR_OUT_OF_DATE_KHR`, and any other (error) code. -/
inductive VkResult where
  | success
  | suboptimalKHR
  | errorOutOfDateKHR
  | errorOther
deriving DecidableEq, Repr

/-- The four `VkPresentModeKHR` values enumerated in `main.cpp`. -/
inductive VkPresentModeKHR where
  | immediate
  | fifo
  | fifoRelaxed
  | mailbox
deriving DecidableEq, Repr

/-- `VkExtent2D`: a width/height pair in pixels. -/
structure VkExtent2D where
  width : Nat
  height : Nat
deriving DecidableEq, Repr

/-- The fields of `VkSurfaceCapabilitiesKHR` read by `selectSwapExtent`. -/
structure VkSurfaceCapabilitiesKHR where
  currentExtent : VkExtent2D
  minImageExtent : VkExtent2D
  maxImageExtent : VkExtent2D
deriving DecidableEq, Repr

/-- `std::numeric_limits<uint32_t>::max()`, the sentinel extent component. -/
def uint32Max : Nat := 4294967295

/-- `std::clamp(v, lo, hi)`: `v < lo ? lo : (hi < v ? hi : v)`. -/
def stdClamp (v lo hi : Nat) : Nat :=
  if v < lo then lo else if hi < v then hi else v

/-- `selectSwapPresentMode` (`main.cpp:918`): scan the available present modes
for `VK_PRESENT_MODE_MAILBOX_KHR` and return it if found, otherwise fall back
to `VK_PRESENT_MODE_FIFO_KHR`. -/
def selectSwapPresentMode : List VkPresentModeKHR → VkPresentModeKHR
  | [] => VkPresentModeKHR.fifo
  | m :: rest =>
    if m = VkPresentModeKHR.mailbox then m else selectSwapPresentMode rest

/-- `selectSwapExtent` (`main.cpp:946`): if `capabilities.currentExtent.width`
is the `uint32_t` sentinel, clamp the window framebuffer size (queried via
`glfwGetFramebufferSize`, passed here as `framebufferSize`) componentwise into
`[minImageExtent, maxImageExtent]`; otherwise return `currentExtent`.  Note
the source tests only the `width` component against the sentinel. -/
def selectSwapExtent (capabilities : VkSurfaceCapabilitiesKHR)
    (framebufferSize : VkExtent2D) : VkExtent2D :=
  if capabilities.currentExtent.width = uint32Max then
    { width := stdClamp framebufferSize.width
        capabilities.minImageExtent.width capabilities.maxImageExtent.width,
      height := stdClamp framebufferSize.height
        capabilities.minImageExtent.height capabilities.maxImageExtent.height }
  else
    capabilities.currentExtent

/-- `VkPhysicalDeviceType` as enumerated in the source comment. -/
inductive VkPhysicalDeviceType where
  | other
  | integratedGpu
  | discreteGpu
  | virtualGpu
  | cpu
deriving DecidableEq, Repr

/-- One queue family's capabilities as observed by `findQueueFamilies`:
whether `queueFlags` has `VK_QUEUE_GRAPHICS_BIT`, and whether
`vkGetPhysicalDeviceSurfaceSupportKHR` reports presentation support. -/
structure QueueFamilyProperties where
  supportsGraphics : Bool
  supportsPresent : Bool
deriving DecidableEq, Repr

/-- `QueueFamilyIndices` from `main.cpp`: optional graphics and present
queue-family indices. -/
structure QueueFamilyIndices where
  graphicsFamily : Option Nat
  presentFamily : Option Nat
deriving DecidableEq, Repr

/-- `QueueFamilyIndices::isComplete`. -/
def QueueFamilyIndices.isComplete (q : QueueFamilyIndices) : Bool :=
  q.graphicsFamily.isSome && q.presentFamily.isSome

/-- The loop body of `findQueueFamilies` (`main.cpp`): walk the queue
families with index `i`, set `graphicsFamily` on the first graphics-capable
family, set `presentFamily` on any present-capable family, and break early
once complete. -/
def findQueueFamiliesAux :
    List QueueFamilyProperties → Nat → QueueFamilyIndices → QueueFamilyIndices
  | [], _, ind => ind
  | qf :: rest, i, ind =>
    let ind1 :=
      if qf.supportsGraphics && !ind.graphicsFamily.isSome then
        { ind with graphicsFamily := some i }
      else ind
    let ind2 :=
      if qf.supportsPresent then { ind1 with presentFamily := some i } else ind1
    if ind2.isComplete then ind2 else findQueueFamiliesAux rest (i + 1) ind2

/-- The physical-device facts consulted by `isDeviceSuitable`. -/
structure PhysicalDevice where
  deviceType : VkPhysicalDeviceType
  queueFamilies : List QueueFamilyProperties
  availableExtensions : List String
  surfaceFormats : List Nat
  presentModes : List VkPresentModeKHR
deriving DecidableEq, Repr

/-- `findQueueFamilies`, starting from empty indices. -/
def findQueueFamilies (d : PhysicalDevice) : QueueFamilyIndices :=
  findQueueFamiliesAux d.queueFamilies 0 { graphicsFamily := none, presentFamily := none }

/-- The `deviceExtensions` constant: `{ VK_KHR_SWAPCHAIN_EXTENSION_NAME }`. -/
def deviceExtensions : List String := ["VK_KHR_swapchain"]

/-- `checkDeviceExtensionSupport`: every required device extension occurs
among the device's available extensions (the `std::set` erase loop). -/
def checkDeviceExtensionSupport (d : PhysicalDevice) : Bool :=
  deviceExtensions.all (fun e => d.availableExtensions.contains e)

/-- `isDeviceSuitable` (`main.cpp:727`): complete queue families, swapchain
extension supported with nonempty formats and present modes, and a discrete
GPU. -/
def isDeviceSuitable (d : PhysicalDevice) : Bool :=
  let indices := findQueueFamilies d
  let swapChainAdequate :=
    if checkDeviceExtensionSupport d then
      !d.surfaceFormats.isEmpty && !d.presentModes.isEmpty
    else false
  indices.isComplete && swapChainAdequate &&
    decide (d.deviceType = VkPhysicalDeviceType.discreteGpu)

/-- The two fatal errors `selectPhysicalDevice` can throw. -/
inductive InitError where
  | noVulkanGpu
  | noSuitableGpu
deriving DecidableEq, Repr

/-- `selectPhysicalDevice` (`main.cpp:773`): throw `noVulkanGpu`
("Failed to find GPUs with Vulkan support.") when the enumeration is empty,
otherwise pick the first suitable device, throwing `noSuitableGpu`
("Failed to find a suitable GPU.") when none qualifies. -/
def selectPhysicalDevice (devices : List PhysicalDevice) :
    Except InitError PhysicalDevice :=
  if devices.isEmpty then Except.error InitError.noVulkanGpu
  else
    match devices.find? (fun d => isDeviceSuitable d) with
    | some d => Except.ok d
    | none => Except.error InitError.noSuitableGpu

/-- The observable actions of a tick of the frame loop, in program order.
`waitFence slot blocked` records a `vkWaitForFences` call on slot `slot`
(`blocked = true` when the fence was not yet signaled and the host had to
block for the GPU); `submit slot ok` records the `vkQueueSubmit` call and
whether it returned `VK_SUCCESS`. -/
inductive Event where
  | waitFence (slot : Nat) (blocked : Bool)
  | acquireImage (r : VkResult)
  | resetFence (slot : Nat)
  | resetCommandBuffer (slot : Nat)
  | record (slot : Nat) (imageIndex : Nat)
  | submit (slot : Nat) (ok : Bool)
  | present (r : VkResult)
  | deviceWaitIdle
  | destroyFramebuffers
  | destroyImageViews
  | destroySwapchain
  | createSwapchain (extent : VkExtent2D)
  | createImageViews
  | createFramebuffers
  | waitEvents
  | getFramebufferSize (extent : VkExtent2D)
deriving DecidableEq, Repr

/-- The host-visible state of a `VkFence`: `signaled` (a wait returns at
once), `pendingGpu` (unsignaled, but a submitted batch will signal it when
the GPU finishes, so a wait blocks and then returns), or `unsignaled`
(unsignaled with no pending work, so a wait would block forever). -/
inductive FenceState where
  | signaled
  | pendingGpu
  | unsignaled
deriving DecidableEq, Repr

/-- Pointwise update of the fence array. -/
def setFence (f : Nat → FenceState) (i : Nat) (v : FenceState) :
    Nat → FenceState :=
  fun j => if j = i then v else f j

/-- The mutable scheduler state of `HelloTriangleApplication` used by
`drawFrame`: the frame-slot index, the sticky resize flag set by the GLFW
callback, and the per-slot in-flight fences. -/
structure FrameState where
  currentFrame : Nat
  framebufferResized : Bool
  fences : Nat → FenceState

/-- `const int MAX_FRAMES_IN_FLIGHT = 2;` -/
def MAX_FRAMES_IN_FLIGHT : Nat := 2

/-- `createSyncObjects` (`main.cpp:2178`) creates every in-flight fence with
`VK_FENCE_CREATE_SIGNALED_BIT`; the loop starts at slot 0 with the resize
flag clear. -/
def initState : FrameState :=
  { currentFrame := 0, framebufferResized := false,
    fences := fun _ => FenceState.signaled }

/-- The results the external Vulkan/GLFW calls return during one tick:
whether the event poll before the tick fired the resize callback, the
acquire result and image index, whether `vkQueueSubmit` succeeds, the
present result, and the successive framebuffer sizes
`glfwGetFramebufferSize` reports inside a rebuild triggered at the acquire
or at the present step. -/
structure TickInput where
  resizeEvent : Bool
  acquireResult : VkResult
  imageIndex : Nat
  submitOk : Bool
  presentResult : VkResult
  acquireExtents : List VkExtent2D
  presentExtents : List VkExtent2D
deriving Repr

/-- How a tick aborts: one of the three `std::runtime_error` throws of
`drawFrame`, or the host blocking forever (a fence wait that nothing will
signal, or a zero-extent poll loop that never sees a nonzero size). -/
inductive VkError where
  | acquireFailed
  | submitFailed
  | presentFailed
  | hostBlocked
deriving DecidableEq, Repr

/-- The `glfwGetFramebufferSize` / `glfwWaitEvents` loop at the top of
`recreateSwapChain`: read a size; while both components are zero, wait for
events and read again.  `exts` is the stream of successive reads; the
result is the events performed and the first size that is not `(0,0)`, or
`none` when the stream is exhausted while still zero (the loop would block
forever). -/
def recreateLoop : List VkExtent2D → Option (List Event × VkExtent2D)
  | [] => none
  | e :: rest =>
    if e.width = 0 ∧ e.height = 0 then
      match recreateLoop rest with
      | some (evs, ex) =>
        some (Event.getFramebufferSize e :: Event.waitEvents :: evs, ex)
      | none => none
    else some ([Event.getFramebufferSize e], e)

/-- `recreateSwapChain` (`main.cpp:2224`): poll until a nonzero framebuffer
size, `vkDeviceWaitIdle`, `cleanupSwapChain` (destroy framebuffers, image
views, swapchain), then `createSwapChain`, `createImageViews`,
`createFramebuffers` against the observed extent. -/
def recreateSwapChain (exts : List VkExtent2D) :
    Option (List Event × VkExtent2D) :=
  match recreateLoop exts with
  | some (evs, ex) =>
    some (evs ++
      [Event.deviceWaitIdle, Event.destroyFramebuffers,
       Event.destroyImageViews, Event.destroySwapchain,
       Event.createSwapchain ex, Event.createImageViews,
       Event.createFramebuffers], ex)
  | none => none

/-- `drawFrame` (`main.cpp:2282`): wait on the current slot's fence, acquire
an image (rebuild and return on `VK_ERROR_OUT_OF_DATE_KHR`, throw on any
result other than success/suboptimal), reset the fence, reset and re-record
the slot's command buffer, submit it signaling the fence, present (rebuild
when the present result is out-of-date/suboptimal or the resize flag is
set, throw on any other failure), and advance the slot index modulo
`MAX_FRAMES_IN_FLIGHT`. -/
def drawFrame (s : FrameState) (t : TickInput) :
    List Event × Except VkError FrameState :=
  let cf := s.currentFrame
  if s.fences cf = FenceState.unsignaled then
    ([Event.waitFence cf true], Except.error VkError.hostBlocked)
  else
    let blocked : Bool := decide (s.fences cf = FenceState.pendingGpu)
    let s1 : FrameState := { s with fences := setFence s.fences cf FenceState.signaled }
    let evs0 := [Event.waitFence cf blocked, Event.acquireImage t.acquireResult]
    if t.acquireResult = VkResult.errorOutOfDateKHR then
      match recreateSwapChain t.acquireExtents with
      | some (revs, _) => (evs0 ++ revs, Except.ok s1)
      | none => (evs0, Except.error VkError.hostBlocked)
    else if t.acquireResult ≠ VkResult.success ∧ t.acquireResult ≠ VkResult.suboptimalKHR then
      (evs0, Except.error VkError.acquireFailed)
    else
      let s2 : FrameState := { s1 with fences := setFence s1.fences cf FenceState.unsignaled }
      let evs1 := evs0 ++
        [Event.resetFence cf, Event.resetCommandBuffer cf, Event.record cf t.imageIndex]
      if t.submitOk then
        let s3 : FrameState := { s2 with fences := setFence s2.fences cf FenceState.pendingGpu }
        let evs2 := evs1 ++ [Event.submit cf true, Event.present t.presentResult]
        if t.presentResult = VkResult.errorOutOfDateKHR ∨
            t.presentResult = VkResult.suboptimalKHR ∨ s3.framebufferResized = true then
          let s4 : FrameState := { s3 with framebufferResized := false }
          match recreateSwapChain t.presentExtents with
          | some (revs, _) =>
            (evs2 ++ revs,
             Except.ok { s4 with currentFrame := (cf + 1) % MAX_FRAMES_IN_FLIGHT })
          | none => (evs2, Except.error VkError.hostBlocked)
        else if t.presentResult ≠ VkResult.success then
          (evs2, Except.error VkError.presentFailed)
        else
          (evs2,
           Except.ok { s3 with currentFrame := (cf + 1) % MAX_FRAMES_IN_FLIGHT })
      else
        (evs1 ++ [Event.submit cf false], Except.error VkError.submitFailed)

/-- `glfwPollEvents` before each tick: the resize callback
(`framebufferResizeCallback`, `main.cpp:347`) sets the sticky flag. -/
def pollEvents (s : FrameState) (resize : Bool) : FrameState :=
  if resize then { s with framebufferResized := true } else s

/-- The main loop (`mainLoop`), one trace per tick: poll events, then
`drawFrame`; stop after a tick that throws or blocks. -/
def runTraces : FrameState → List TickInput → List (List Event)
  | _, [] => []
  | s, t :: ts =>
    match drawFrame (pollEvents s t.resizeEvent) t with
    | (evs, Except.ok s2) => evs :: runTraces s2 ts
    | (evs, Except.error _) => [evs]

/-- The flat event trace of a run. -/
def runTrace (s : FrameState) (ts : List TickInput) : List Event :=
  (runTraces s ts).flatten

/-- The scheduler state (or abort) a run ends in. -/
def runResult : FrameState → List TickInput → Except VkError FrameState
  | s, [] => Except.ok s
  | s, t :: ts =>
    match drawFrame (pollEvents s t.resizeEvent) t with
    | (_, Except.ok s2) => runResult s2 ts
    | (_, Except.error e) => Except.error e

/-- Number of `vkWaitForFences` calls on slot `i` in a trace. -/
def countWait (i : Nat) (evs : List Event) : Nat :=
  evs.countP fun e => match e with
    | Event.waitFence j _ => j == i
    | _ => false

/-- Number of fence waits that found the fence unsignaled and had to block. -/
def countBlockedWait (evs : List Event) : Nat :=
  evs.countP fun e => match e with
    | Event.waitFence _ b => b
    | _ => false

/-- Number of successful `vkQueueSubmit` calls signaling slot `i`'s fence. -/
def countSignalSubmit (i : Nat) (evs : List Event) : Nat :=
  evs.countP fun e => match e with
    | Event.submit j ok => j == i && ok
    | _ => false

/-- Number of `vkQueueSubmit` calls (any slot, either outcome). -/
def countSubmitCalls (evs : List Event) : Nat :=
  evs.countP fun e => match e with
    | Event.submit _ _ => true
    | _ => false

/-- Number of `vkResetFences` calls (any slot). -/
def countResetFenceCalls (evs : List Event) : Nat :=
  evs.countP fun e => match e with
    | Event.resetFence _ => true
    | _ => false

/-- Number of `vkResetCommandBuffer` calls (any slot). -/
def countResetCommandBufferCalls (evs : List Event) : Nat :=
  evs.countP fun e => match e with
    | Event.resetCommandBuffer _ => true
    | _ => false

/-- Number of `recordCommandBuffer` calls (any slot). -/
def countRecordCalls (evs : List Event) : Nat :=
  evs.countP fun e => match e with
    | Event.record _ _ => true
    | _ => false

/-- Number of `vkQueuePresentKHR` calls. -/
def countPresentCalls (evs : List Event) : Nat :=
  evs.countP fun e => match e with
    | Event.present _ => true
    | _ => false

/-- Number of `createSwapChain` calls, i.e. completed swapchain rebuilds. -/
def countCreateSwapchainCalls (evs : List Event) : Nat :=
  evs.countP fun e => match e with
    | Event.createSwapchain _ => true
    | _ => false

/-- One step of the submitted-but-not-completed counter for slot `i`: a
successful submit on slot `i` adds an outstanding batch; a wait on slot
`i` returning means that batch has completed. -/
def outstandingStep (i : Nat) (n : Nat) (e : Event) : Nat :=
  match e with
  | Event.submit j true => if j = i then n + 1 else n
  | Event.waitFence j _ => if j = i then 0 else n
  | _ => n

/-- Slot `i`'s submitted-but-not-completed count after a trace, starting
from `acc` outstanding batches. -/
def outstandingAfter (i : Nat) (acc : Nat) (evs : List Event) : Nat :=
  evs.foldl (outstandingStep i) acc

/-- Scan for a reuse violation on slot `i`: `armed` records that slot `i`'s
command buffer has a submitted batch whose fence has not been waited on
since; resetting or re-recording that buffer while armed is a violation. -/
def reuseBeforeWait (i : Nat) : List Event → Bool → Bool
  | [], _ => false
  | e :: evs, armed =>
    match e with
    | Event.submit j true => reuseBeforeWait i evs (armed || j == i)
    | Event.waitFence j _ => reuseBeforeWait i evs (armed && !(j == i))
    | Event.resetCommandBuffer j => (armed && (j == i)) || reuseBeforeWait i evs armed
    | Event.record j _ => (armed && (j == i)) || reuseBeforeWait i evs armed
    | _ => reuseBeforeWait i evs armed

/-- Slot `i` has an outstanding (submitted, not completed) batch. -/
def pendingFlag (s : FrameState) (i : Nat) : Bool :=
  decide (s.fences i = FenceState.pendingGpu)

/-- Slot `i`'s outstanding-batch count (0 or 1 in this design). -/
def pendingBit (s : FrameState) (i : Nat) : Nat :=
  if s.fences i = FenceState.pendingGpu then 1 else 0

/-- `stdClamp` lands in `[lo, hi]` whenever `lo ≤ hi`. -/
lemma stdClamp_mem (v lo hi : Nat) (h : lo ≤ hi) :
    lo ≤ stdClamp v lo hi ∧ stdClamp v lo hi ≤ hi := by
  unfold stdClamp
  split_ifs <;> omega

/-- `findQueueFamiliesAux` ends complete exactly when each capability is
either already recorded or offered by some remaining family. -/
lemma findQueueFamiliesAux_isComplete (qs : List QueueFamilyProperties)
    (i : Nat) (ind : QueueFamilyIndices) :
    (findQueueFamiliesAux qs i ind).isComplete =
      ((ind.graphicsFamily.isSome || qs.any (fun qf => qf.supportsGraphics)) &&
       (ind.presentFamily.isSome || qs.any (fun qf => qf.supportsPresent))) := by
  induction qs generalizing i ind with
  | nil => simp [findQueueFamiliesAux, QueueFamilyIndices.isComplete]
  | cons qf rest ih =>
    rcases ind with ⟨g, p⟩
    rcases qf with ⟨qg, qp⟩
    cases qg <;> cases qp <;> cases g <;> cases p <;>
      simp_all [findQueueFamiliesAux, QueueFamilyIndices.isComplete]

/-- A device's queue families are complete iff some family is
graphics-capable and some family is present-capable. -/
lemma findQueueFamilies_isComplete (d : PhysicalDevice) :
    (findQueueFamilies d).isComplete =
      (d.queueFamilies.any (fun qf => qf.supportsGraphics) &&
       d.queueFamilies.any (fun qf => qf.supportsPresent)) := by
  simp [findQueueFamilies, findQueueFamiliesAux_isComplete]

/-- C8: `selectSwapPresentMode` returns mailbox when it occurs anywhere in
the available present modes, FIFO otherwise; in particular it never fails
and never returns a third mode. -/
theorem presentModeSelection (modes : List VkPresentModeKHR) :
    selectSwapPresentMode modes =
      (if VkPresentModeKHR.mailbox ∈ modes then VkPresentModeKHR.mailbox
       else VkPresentModeKHR.fifo) ∧
    (selectSwapPresentMode modes = VkPresentModeKHR.mailbox ∨
     selectSwapPresentMode modes = VkPresentModeKHR.fifo) := by
  have hmain : selectSwapPresentMode modes =
      (if VkPresentModeKHR.mailbox ∈ modes then VkPresentModeKHR.mailbox
       else VkPresentModeKHR.fifo) := by
    induction modes with
    | nil => simp [selectSwapPresentMode]
    | cons m rest ih =>
      by_cases h : m = VkPresentModeKHR.mailbox
      · subst h
        simp [selectSwapPresentMode]
      · have h' : ¬ VkPresentModeKHR.mailbox = m := fun he => h he.symm
        simp [selectSwapPresentMode, h, h', ih, List.mem_cons]
  refine ⟨hmain, ?_⟩
  rw [hmain]
  split <;> simp

/-- C7 counterexample: with `currentExtent = (0xFFFFFFFF, 5)` — not the
sentinel pair — the code still takes the clamping branch (the source checks
only the width), so the resolved extent is the clamped framebuffer size,
not `currentExtent` as the claim requires. -/
theorem swapExtentSentinel_cex :
    (VkSurfaceCapabilitiesKHR.currentExtent
        ⟨⟨uint32Max, 5⟩, ⟨100, 100⟩, ⟨200, 200⟩⟩ ≠ ⟨uint32Max, uint32Max⟩) ∧
    selectSwapExtent ⟨⟨uint32Max, 5⟩, ⟨100, 100⟩, ⟨200, 200⟩⟩ ⟨150, 150⟩ =
      ⟨150, 150⟩ ∧
    selectSwapExtent ⟨⟨uint32Max, 5⟩, ⟨100, 100⟩, ⟨200, 200⟩⟩ ⟨150, 150⟩ ≠
      VkSurfaceCapabilitiesKHR.currentExtent
        ⟨⟨uint32Max, 5⟩, ⟨100, 100⟩, ⟨200, 200⟩⟩ := by
  decide

/-- C7 (amended): if `currentExtent.width` is the `0xFFFFFFFF` sentinel (the
source checks only the width component), the resolved extent is the window
framebuffer size clamped componentwise into
`[minImageExtent, maxImageExtent]`; otherwise it is `currentExtent`
unchanged. -/
theorem swapExtentResolution (caps : VkSurfaceCapabilitiesKHR)
    (fb : VkExtent2D) :
    (caps.currentExtent.width = uint32Max →
      selectSwapExtent caps fb =
        ⟨stdClamp fb.width caps.minImageExtent.width caps.maxImageExtent.width,
         stdClamp fb.height caps.minImageExtent.height
           caps.maxImageExtent.height⟩ ∧
      (caps.minImageExtent.width ≤ caps.maxImageExtent.width →
        caps.minImageExtent.width ≤ (selectSwapExtent caps fb).width ∧
        (selectSwapExtent caps fb).width ≤ caps.maxImageExtent.width) ∧
      (caps.minImageExtent.height ≤ caps.maxImageExtent.height →
        caps.minImageExtent.height ≤ (selectSwapExtent caps fb).height ∧
        (selectSwapExtent caps fb).height ≤ caps.maxImageExtent.height)) ∧
    (caps.currentExtent.width ≠ uint32Max →
      selectSwapExtent caps fb = caps.currentExtent) := by
  constructor
  · intro h
    have he : selectSwapExtent caps fb =
        ⟨stdClamp fb.width caps.minImageExtent.width caps.maxImageExtent.width,
         stdClamp fb.height caps.minImageExtent.height
           caps.maxImageExtent.height⟩ := by
      simp [selectSwapExtent, h]
    refine ⟨he, ?_, ?_⟩
    · intro hw
      rw [he]
      exact stdClamp_mem _ _ _ hw
    · intro hh
      rw [he]
      exact stdClamp_mem _ _ _ hh
  · intro h
    simp [selectSwapExtent, h]

/-- Witness for C7's theorem: a sentinel-width capability with bounds
`[100,200]²` and framebuffer `(50, 300)` resolves to the clamped `(100, 200)`. -/
theorem swapExtentResolution_witness :
    selectSwapExtent ⟨⟨uint32Max, uint32Max⟩, ⟨100, 100⟩, ⟨200, 200⟩⟩
      ⟨50, 300⟩ = ⟨100, 200⟩ := by
  have h :=
    (swapExtentResolution ⟨⟨uint32Max, uint32Max⟩, ⟨100, 100⟩, ⟨200, 200⟩⟩
      ⟨50, 300⟩).1 (by decide)
  rw [h.1]
  decide

/-- C10 counterexample: with zero enumerated devices — so that vacuously no
enumerated device is suitable — initialization throws
"Failed to find GPUs with Vulkan support.", not
"Failed to find a suitable GPU." as the claim's iff requires. -/
theorem deviceSelectionEmpty_cex :
    selectPhysicalDevice [] = Except.error InitError.noVulkanGpu ∧
    InitError.noVulkanGpu ≠ InitError.noSuitableGpu :=
  ⟨rfl, by decide⟩

/-- C10 (amended): a device is suitable iff it has a graphics-capable and a
present-capable queue family, supports the swapchain extension with at
least one surface format and one present mode, and is a discrete GPU;
"Failed to find a suitable GPU." is thrown iff the enumeration is nonempty
and no enumerated device is suitable (an empty enumeration throws
"Failed to find GPUs with Vulkan support." instead). -/
theorem deviceSelection (devices : List PhysicalDevice) (d : PhysicalDevice) :
    (selectPhysicalDevice devices = Except.error InitError.noSuitableGpu ↔
      devices ≠ [] ∧ ∀ x ∈ devices, isDeviceSuitable x = false) ∧
    (isDeviceSuitable d = true ↔
      ((∃ qf ∈ d.queueFamilies, qf.supportsGraphics = true) ∧
       (∃ qf ∈ d.queueFamilies, qf.supportsPresent = true) ∧
       checkDeviceExtensionSupport d = true ∧
       d.surfaceFormats ≠ [] ∧ d.presentModes ≠ [] ∧
       d.deviceType = VkPhysicalDeviceType.discreteGpu)) ∧
    selectPhysicalDevice [] = Except.error InitError.noVulkanGpu := by
  refine ⟨?_, ?_, rfl⟩
  · unfold selectPhysicalDevice
    rcases devices with _ | ⟨d0, rest⟩
    · simp
    · simp only [List.isEmpty_cons, if_false, ne_eq, reduceCtorEq,
        not_false_iff, true_and, Bool.false_eq_true]
      rcases hf : (d0 :: rest).find? (fun x => isDeviceSuitable x) with _ | x
      · rw [List.find?_eq_none] at hf
        simp only [reduceCtorEq]
        constructor
        · intro _
          intro x hx
          simpa using hf x hx
        · intro _
          trivial
      · have hx := List.find?_some hf
        have hmem := List.mem_of_find?_eq_some hf
        constructor
        · intro h
          cases h
        · intro hall
          have := hall x hmem
          rw [this] at hx
          cases hx
  · simp only [isDeviceSuitable, findQueueFamilies_isComplete]
    by_cases hext : checkDeviceExtensionSupport d = true
    · simp [hext, List.any_eq_true, List.isEmpty_eq_false, and_assoc,
        decide_eq_true_iff]
    · simp [hext]

/-- Witness for C10's theorem: a machine whose only GPU is integrated (but
otherwise fully capable) is rejected with "Failed to find a suitable GPU.". -/
theorem deviceSelection_witness :
    selectPhysicalDevice
      [{ deviceType := VkPhysicalDeviceType.integratedGpu,
         queueFamilies := [{ supportsGraphics := true, supportsPresent := true }],
         availableExtensions := ["VK_KHR_swapchain"],
         surfaceFormats := [0],
         presentModes := [VkPresentModeKHR.fifo] }] =
      Except.error InitError.noSuitableGpu :=
  (deviceSelection
      [{ deviceType := VkPhysicalDeviceType.integratedGpu,
         queueFamilies := [{ supportsGraphics := true, supportsPresent := true }],
         availableExtensions := ["VK_KHR_swapchain"],
         surfaceFormats := [0],
         presentModes := [VkPresentModeKHR.fifo] }]
      { deviceType := VkPhysicalDeviceType.integratedGpu,
        queueFamilies := [], availableExtensions := [],
        surfaceFormats := [], presentModes := [] }).1.mpr
    ⟨by decide, by decide⟩

/-- The armed-flag transformer of the reuse scan over a trace chunk. -/
def armedAfter (i : Nat) : List Event → Bool → Bool
  | [], a => a
  | e :: evs, a =>
    match e with
    | Event.submit j true => armedAfter i evs (a || j == i)
    | Event.waitFence j _ => armedAfter i evs (a && !(j == i))
    | _ => armedAfter i evs a

/-- Scan checking that slot `i`'s outstanding count stays at most 1 at every
point of the trace, starting from `n` outstanding batches. -/
def boundedScan (i : Nat) : List Event → Nat → Bool
  | [], n => decide (n ≤ 1)
  | e :: evs, n => decide (n ≤ 1) && boundedScan i evs (outstandingStep i n e)

/-- Events that the per-slot scans ignore: everything except fence waits,
submits, command-buffer resets and recordings. -/
def scanNeutral (e : Event) : Bool :=
  match e with
  | Event.waitFence _ _ => false
  | Event.submit _ _ => false
  | Event.resetCommandBuffer _ => false
  | Event.record _ _ => false
  | _ => true

/-- Updating the same fence slot twice keeps only the second value. -/
lemma setFence_setFence (f : Nat → FenceState) (i : Nat) (u v : FenceState) :
    setFence (setFence f i u) i v = setFence f i v := by
  funext j
  by_cases h : j = i <;> simp [setFence, h]

/-- Reading back the updated slot. -/
lemma setFence_same (f : Nat → FenceState) (i : Nat) (v : FenceState) :
    setFence f i v i = v := by
  simp [setFence]

/-- Reading a different slot. -/
lemma setFence_other (f : Nat → FenceState) (i j : Nat) (v : FenceState)
    (h : j ≠ i) : setFence f i v j = f j := by
  simp [setFence, h]

/-- The reuse scan distributes over trace concatenation. -/
lemma reuseBeforeWait_append (i : Nat) (a b : List Event) (armed : Bool) :
    reuseBeforeWait i (a ++ b) armed =
      (reuseBeforeWait i a armed || reuseBeforeWait i b (armedAfter i a armed)) := by
  induction a generalizing armed with
  | nil => simp [reuseBeforeWait, armedAfter]
  | cons e a' ih =>
    cases e <;> simp [reuseBeforeWait, armedAfter, ih, Bool.or_assoc]
    case submit j ok => cases ok <;> simp [reuseBeforeWait, armedAfter, ih]

/-- The armed-flag transformer composes over concatenation. -/
lemma armedAfter_append (i : Nat) (a b : List Event) (armed : Bool) :
    armedAfter i (a ++ b) armed = armedAfter i b (armedAfter i a armed) := by
  induction a generalizing armed with
  | nil => simp [armedAfter]
  | cons e a' ih =>
    cases e <;> simp [armedAfter, ih]
    case submit j ok => cases ok <;> simp [armedAfter, ih]

/-- The bounded-outstanding scan distributes over trace concatenation. -/
lemma boundedScan_append (i : Nat) (a b : List Event) (n : Nat) :
    boundedScan i (a ++ b) n =
      (boundedScan i a n && boundedScan i b (a.foldl (outstandingStep i) n)) := by
  induction a generalizing n with
  | nil =>
    simp only [List.nil_append, List.foldl_nil]
    cases b with
    | nil => simp [boundedScan]
    | cons e b' =>
      rw [boundedScan, boundedScan]
      cases hd : decide (n ≤ 1) <;> simp [boundedScan, hd]
  | cons e a' ih =>
    simp [boundedScan, ih, Bool.and_assoc]

/-- `boundedScan` says exactly that every prefix of the trace leaves at most
one outstanding batch on slot `i`. -/
lemma boundedScan_iff (i : Nat) (evs : List Event) (n : Nat) :
    boundedScan i evs n = true ↔
      ∀ m, ((evs.take m).foldl (outstandingStep i) n) ≤ 1 := by
  induction evs generalizing n with
  | nil => simp [boundedScan]
  | cons e evs ih =>
    simp only [boundedScan, Bool.and_eq_true, decide_eq_true_eq, ih]
    constructor
    · rintro ⟨h1, h2⟩ m
      cases m with
      | zero => simpa using h1
      | succ m => simpa [List.take_succ_cons] using h2 m
    · intro h
      refine ⟨by simpa using h 0, fun m => ?_⟩
      simpa [List.take_succ_cons] using h (m + 1)

/-- Scans ignore a chunk of neutral events: no violation is found. -/
lemma reuseBeforeWait_neutral (i : Nat) (evs : List Event)
    (h : ∀ e ∈ evs, scanNeutral e = true) (a : Bool) :
    reuseBeforeWait i evs a = false := by
  induction evs generalizing a with
  | nil => rfl
  | cons e evs ih =>
    have he := h e (List.mem_cons_self e evs)
    have hrest : ∀ x ∈ evs, scanNeutral x = true :=
      fun x hx => h x (List.mem_cons_of_mem e hx)
    cases e <;> simp [scanNeutral] at he ⊢ <;> exact ih hrest a

/-- Scans ignore a chunk of neutral events: the armed flag is unchanged. -/
lemma armedAfter_neutral (i : Nat) (evs : List Event)
    (h : ∀ e ∈ evs, scanNeutral e = true) (a : Bool) :
    armedAfter i evs a = a := by
  induction evs generalizing a with
  | nil => rfl
  | cons e evs ih =>
    have he := h e (List.mem_cons_self e evs)
    have hrest : ∀ x ∈ evs, scanNeutral x = true :=
      fun x hx => h x (List.mem_cons_of_mem e hx)
    cases e <;> simp [scanNeutral] at he ⊢ <;> exact ih hrest a

/-- Scans ignore a chunk of neutral events: the outstanding count is
unchanged. -/
lemma foldl_outstanding_neutral (i : Nat) (evs : List Event)
    (h : ∀ e ∈ evs, scanNeutral e = true) (n : Nat) :
    evs.foldl (outstandingStep i) n = n := by
  induction evs generalizing n with
  | nil => rfl
  | cons e evs ih =>
    have he := h e (List.mem_cons_self e evs)
    have hrest : ∀ x ∈ evs, scanNeutral x = true :=
      fun x hx => h x (List.mem_cons_of_mem e hx)
    cases e <;> simp [scanNeutral] at he ⊢ <;>
      simp [List.foldl_cons, outstandingStep] <;> exact ih hrest n

/-- Neutral chunks keep the outstanding count bounded. -/
lemma boundedScan_neutral (i : Nat) (evs : List Event)
    (h : ∀ e ∈ evs, scanNeutral e = true) (n : Nat) (hn : n ≤ 1) :
    boundedScan i evs n = true := by
  induction evs generalizing n with
  | nil => simpa [boundedScan]
  | cons e evs ih =>
    have he := h e (List.mem_cons_self e evs)
    have hrest : ∀ x ∈ evs, scanNeutral x = true :=
      fun x hx => h x (List.mem_cons_of_mem e hx)
    cases e <;> simp [scanNeutral] at he ⊢ <;>
      simp [boundedScan, outstandingStep, hn] <;> exact ih hrest n hn

/-- The zero-extent poll loop: every event is a size read or an event wait,
every size read is either the final size or `(0,0)`, and the final size is
the first read that is not `(0,0)`. -/
lemma recreateLoop_spec (exts : List VkExtent2D) :
    ∀ evs ex, recreateLoop exts = some (evs, ex) →
      (∀ e ∈ evs, (∃ x, e = Event.getFramebufferSize x) ∨ e = Event.waitEvents) ∧
      exts.find? (fun x => decide ¬(x.width = 0 ∧ x.height = 0)) = some ex ∧
      (∀ x, Event.getFramebufferSize x ∈ evs →
        x = ex ∨ (x.width = 0 ∧ x.height = 0)) ∧
      ¬(ex.width = 0 ∧ ex.height = 0) := by
  induction exts with
  | nil => intro evs ex h; simp [recreateLoop] at h
  | cons e rest ih =>
    intro evs ex h
    rw [recreateLoop] at h
    by_cases hz : e.width = 0 ∧ e.height = 0
    · rw [if_pos hz] at h
      rcases hrl : recreateLoop rest with _ | ⟨evs', ex'⟩
      · rw [hrl] at h; cases h
      · rw [hrl] at h
        simp only [Option.some.injEq, Prod.mk.injEq] at h
        obtain ⟨rfl, rfl⟩ := h
        obtain ⟨m1, m2, m3, m4⟩ := ih evs' ex' hrl
        refine ⟨?_, ?_, ?_, m4⟩
        · intro x hx
          rcases List.mem_cons.mp hx with rfl | hx
          · exact Or.inl ⟨e, rfl⟩
          rcases List.mem_cons.mp hx with rfl | hx
          · exact Or.inr rfl
          · exact m1 x hx
        · rw [List.find?_cons_of_neg _
            (by simp only [decide_eq_true_eq, not_not]; exact hz)]
          exact m2
        · intro x hx
          rcases List.mem_cons.mp hx with hx | hx
          · obtain ⟨rfl⟩ := Event.getFramebufferSize.inj hx
            exact Or.inr hz
          rcases List.mem_cons.mp hx with hx | hx
          · cases hx
          · exact m3 x hx
    · rw [if_neg hz] at h
      simp only [Option.some.injEq, Prod.mk.injEq] at h
      obtain ⟨rfl, rfl⟩ := h
      refine ⟨?_, ?_, ?_, hz⟩
      · intro x hx
        rcases List.mem_cons.mp hx with rfl | hx
        · exact Or.inl ⟨e, rfl⟩
        · cases hx
      · rw [List.find?_cons_of_pos _
          (by simp only [decide_eq_true_eq]; exact hz)]
      · intro x hx
        rcases List.mem_cons.mp hx with hx | hx
        · obtain ⟨rfl⟩ := Event.getFramebufferSize.inj hx
          exact Or.inl rfl
        · cases hx

/-- A completed `recreateSwapChain` trace is the poll loop followed, in
order, by the device-idle wait, the destruction of framebuffers, image
views and swapchain, and their recreation against the observed extent. -/
lemma recreateSwapChain_spec (exts : List VkExtent2D) (evs : List Event)
    (ex : VkExtent2D) (h : recreateSwapChain exts = some (evs, ex)) :
    ∃ pollEvs, recreateLoop exts = some (pollEvs, ex) ∧
      evs = pollEvs ++
        [Event.deviceWaitIdle, Event.destroyFramebuffers,
         Event.destroyImageViews, Event.destroySwapchain,
         Event.createSwapchain ex, Event.createImageViews,
         Event.createFramebuffers] := by
  unfold recreateSwapChain at h
  rcases hrl : recreateLoop exts with _ | ⟨pe, px⟩
  · rw [hrl] at h; cases h
  · rw [hrl] at h
    simp only [Option.some.injEq, Prod.mk.injEq] at h
    obtain ⟨h1, rfl⟩ := h
    exact ⟨pe, rfl, h1.symm⟩

/-- Every event of a completed rebuild trace is neutral for the per-slot
scans. -/
lemma recreateSwapChain_neutral (exts : List VkExtent2D) (evs : List Event)
    (ex : VkExtent2D) (h : recreateSwapChain exts = some (evs, ex)) :
    ∀ e ∈ evs, scanNeutral e = true := by
  obtain ⟨pe, hrl, he⟩ := recreateSwapChain_spec exts evs ex h
  obtain ⟨m1, -, -, -⟩ := recreateLoop_spec exts pe ex hrl
  subst he
  intro e hmem
  rcases List.mem_append.mp hmem with hmem | hmem
  · rcases m1 e hmem with ⟨x, rfl⟩ | rfl <;> rfl
  · fin_cases hmem <;> rfl

/-- A completed rebuild trace performs no fence waits, submits, fence or
command-buffer resets, recordings or presents, and exactly one
`createSwapChain`. -/
lemma recreateSwapChain_counts (exts : List VkExtent2D) (evs : List Event)
    (ex : VkExtent2D) (h : recreateSwapChain exts = some (evs, ex)) :
    (∀ i, countWait i evs = 0) ∧ (∀ i, countSignalSubmit i evs = 0) ∧
    countSubmitCalls evs = 0 ∧ countResetFenceCalls evs = 0 ∧
    countResetCommandBufferCalls evs = 0 ∧ countRecordCalls evs = 0 ∧
    countPresentCalls evs = 0 ∧ countBlockedWait evs = 0 ∧
    countCreateSwapchainCalls evs = 1 := by
  obtain ⟨pe, hrl, he⟩ := recreateSwapChain_spec exts evs ex h
  obtain ⟨m1, -, -, -⟩ := recreateLoop_spec exts pe ex hrl
  subst he
  have hz : ∀ (p : Event → Bool),
      (∀ x, p (Event.getFramebufferSize x) = false) →
      p Event.waitEvents = false → pe.countP p = 0 := by
    intro p h1 h2
    rw [List.countP_eq_zero]
    intro e hmem
    rcases m1 e hmem with ⟨x, rfl⟩ | rfl <;> simp [h1, h2]
  refine ⟨fun i => ?_, fun i => ?_, ?_, ?_, ?_, ?_, ?_, ?_, ?_⟩ <;>
    simp [countWait, countSignalSubmit, countSubmitCalls, countResetFenceCalls,
      countResetCommandBufferCalls, countRecordCalls, countPresentCalls,
      countBlockedWait, countCreateSwapchainCalls, List.countP_append,
      List.countP_cons, hz]

/-- Exhaustive path analysis of one `drawFrame` tick, assuming the current
slot's fence wait can return (the fence is signaled or has pending GPU
work).  Each disjunct gives the exact trace and outcome of one control-flow
path of the source. -/
lemma drawFrame_path (s : FrameState) (t : TickInput)
    (hf : s.fences s.currentFrame ≠ FenceState.unsignaled) :
    (∃ revs ex, t.acquireResult = VkResult.errorOutOfDateKHR ∧
      recreateSwapChain t.acquireExtents = some (revs, ex) ∧
      drawFrame s t =
        (Event.waitFence s.currentFrame (pendingFlag s s.currentFrame) ::
           Event.acquireImage t.acquireResult :: revs,
         Except.ok { s with
           fences := setFence s.fences s.currentFrame FenceState.signaled })) ∨
    (t.acquireResult = VkResult.errorOutOfDateKHR ∧
      recreateSwapChain t.acquireExtents = none ∧
      drawFrame s t =
        ([Event.waitFence s.currentFrame (pendingFlag s s.currentFrame),
          Event.acquireImage t.acquireResult],
         Except.error VkError.hostBlocked)) ∨
    (t.acquireResult = VkResult.errorOther ∧
      drawFrame s t =
        ([Event.waitFence s.currentFrame (pendingFlag s s.currentFrame),
          Event.acquireImage t.acquireResult],
         Except.error VkError.acquireFailed)) ∨
    ((t.acquireResult = VkResult.success ∨
        t.acquireResult = VkResult.suboptimalKHR) ∧ t.submitOk = false ∧
      drawFrame s t =
        ([Event.waitFence s.currentFrame (pendingFlag s s.currentFrame),
          Event.acquireImage t.acquireResult,
          Event.resetFence s.currentFrame,
          Event.resetCommandBuffer s.currentFrame,
          Event.record s.currentFrame t.imageIndex,
          Event.submit s.currentFrame false],
         Except.error VkError.submitFailed)) ∨
    (∃ revs ex, (t.acquireResult = VkResult.success ∨
        t.acquireResult = VkResult.suboptimalKHR) ∧ t.submitOk = true ∧
      (t.presentResult = VkResult.errorOutOfDateKHR ∨
        t.presentResult = VkResult.suboptimalKHR ∨
        s.framebufferResized = true) ∧
      recreateSwapChain t.presentExtents = some (revs, ex) ∧
      drawFrame s t =
        ([Event.waitFence s.currentFrame (pendingFlag s s.currentFrame),
          Event.acquireImage t.acquireResult,
          Event.resetFence s.currentFrame,
          Event.resetCommandBuffer s.currentFrame,
          Event.record s.currentFrame t.imageIndex,
          Event.submit s.currentFrame true,
          Event.present t.presentResult] ++ revs,
         Except.ok { currentFrame := (s.currentFrame + 1) % MAX_FRAMES_IN_FLIGHT,
                     framebufferResized := false,
                     fences := setFence s.fences s.currentFrame FenceState.pendingGpu })) ∨
    ((t.acquireResult = VkResult.success ∨
        t.acquireResult = VkResult.suboptimalKHR) ∧ t.submitOk = true ∧
      (t.presentResult = VkResult.errorOutOfDateKHR ∨
        t.presentResult = VkResult.suboptimalKHR ∨
        s.framebufferResized = true) ∧
      recreateSwapChain t.presentExtents = none ∧
      drawFrame s t =
        ([Event.waitFence s.currentFrame (pendingFlag s s.currentFrame),
          Event.acquireImage t.acquireResult,
          Event.resetFence s.currentFrame,
          Event.resetCommandBuffer s.currentFrame,
          Event.record s.currentFrame t.imageIndex,
          Event.submit s.currentFrame true,
          Event.present t.presentResult],
         Except.error VkError.hostBlocked)) ∨
    ((t.acquireResult = VkResult.success ∨
        t.acquireResult = VkResult.suboptimalKHR) ∧ t.submitOk = true ∧
      t.presentResult = VkResult.errorOther ∧ s.framebufferResized = false ∧
      drawFrame s t =
        ([Event.waitFence s.currentFrame (pendingFlag s s.currentFrame),
          Event.acquireImage t.acquireResult,
          Event.resetFence s.currentFrame,
          Event.resetCommandBuffer s.currentFrame,
          Event.record s.currentFrame t.imageIndex,
          Event.submit s.currentFrame true,
          Event.present t.presentResult],
         Except.error VkError.presentFailed)) ∨
    ((t.acquireResult = VkResult.success ∨
        t.acquireResult = VkResult.suboptimalKHR) ∧ t.submitOk = true ∧
      t.presentResult = VkResult.success ∧ s.framebufferResized = false ∧
      drawFrame s t =
        ([Event.waitFence s.currentFrame (pendingFlag s s.currentFrame),
          Event.acquireImage t.acquireResult,
          Event.resetFence s.currentFrame,
          Event.resetCommandBuffer s.currentFrame,
          Event.record s.currentFrame t.imageIndex,
          Event.submit s.currentFrame true,
          Event.present t.presentResult],
         Except.ok { currentFrame := (s.currentFrame + 1) % MAX_FRAMES_IN_FLIGHT,
                     framebufferResized := s.framebufferResized,
                     fences := setFence s.fences s.currentFrame FenceState.pendingGpu })) := by
  have hsf : setFence (setFence (setFence s.fences s.currentFrame
      FenceState.signaled) s.currentFrame FenceState.unsignaled) s.currentFrame
      FenceState.pendingGpu = setFence s.fences s.currentFrame FenceState.pendingGpu := by
    rw [setFence_setFence, setFence_setFence]
  rcases ha : t.acquireResult
  case errorOutOfDateKHR =>
    rcases hrec : recreateSwapChain t.acquireExtents with _ | ⟨revs, ex⟩
    · refine Or.inr (Or.inl ⟨rfl, rfl, ?_⟩)
      simp [drawFrame, hf, ha, hrec, pendingFlag]
    · refine Or.inl ⟨revs, ex, rfl, rfl, ?_⟩
      simp [drawFrame, hf, ha, hrec, pendingFlag]
  case errorOther =>
    refine Or.inr (Or.inr (Or.inl ⟨rfl, ?_⟩))
    simp [drawFrame, hf, ha, pendingFlag]
  all_goals (
    cases hsub : t.submitOk
    case false =>
      refine Or.inr (Or.inr (Or.inr (Or.inl ⟨by simp [ha], rfl, ?_⟩)))
      simp [drawFrame, hf, ha, hsub, pendingFlag]
    case true =>
      by_cases hpr : t.presentResult = VkResult.errorOutOfDateKHR ∨
          t.presentResult = VkResult.suboptimalKHR ∨ s.framebufferResized = true
      · rcases hrec : recreateSwapChain t.presentExtents with _ | ⟨revs, ex⟩
        · refine Or.inr (Or.inr (Or.inr (Or.inr (Or.inr (Or.inl
            ⟨by simp [ha], rfl, hpr, rfl, ?_⟩)))))
          simp [drawFrame, hf, ha, hsub, hpr, hrec, pendingFlag]
        · refine Or.inr (Or.inr (Or.inr (Or.inr (Or.inl
            ⟨revs, ex, by simp [ha], rfl, hpr, rfl, ?_⟩))))
          simp [drawFrame, hf, ha, hsub, hpr, hrec, pendingFlag, hsf]
      · have hflag : s.framebufferResized = false := by
          rcases hb : s.framebufferResized
          · rfl
          · exact absurd (Or.inr (Or.inr hb)) hpr
        rcases hp : t.presentResult with _ | _ | _ | _
        · refine Or.inr (Or.inr (Or.inr (Or.inr (Or.inr (Or.inr (Or.inr
            ⟨by simp [ha], rfl, rfl, hflag, ?_⟩))))))
          simp [drawFrame, hf, ha, hsub, hpr, hp, pendingFlag, hsf, hflag]
        · exact absurd (Or.inr (Or.inl hp)) hpr
        · exact absurd (Or.inl hp) hpr
        · refine Or.inr (Or.inr (Or.inr (Or.inr (Or.inr (Or.inr (Or.inl
            ⟨by simp [ha], rfl, rfl, hflag, ?_⟩))))))
          simp [drawFrame, hf, ha, hsub, hpr, hp, pendingFlag, hsf, hflag])

/-- Polling events only touches the resize flag. -/
lemma pollEvents_fences (s : FrameState) (r : Bool) :
    (pollEvents s r).fences = s.fences := by
  unfold pollEvents; split <;> rfl

/-- Polling events does not move the frame slot. -/
lemma pollEvents_currentFrame (s : FrameState) (r : Bool) :
    (pollEvents s r).currentFrame = s.currentFrame := by
  unfold pollEvents; split <;> rfl

/-- A slot holds at most one outstanding batch. -/
lemma pendingBit_le_one (s : FrameState) (i : Nat) : pendingBit s i ≤ 1 := by
  unfold pendingBit; split <;> omega

/-- The slot advance `(cf + 1) % 2` never returns to the same slot. -/
lemma next_slot_ne (cf : Nat) : (cf + 1) % MAX_FRAMES_IN_FLIGHT ≠ cf := by
  simp only [MAX_FRAMES_IN_FLIGHT]
  omega

/-- Per-tick accounting of wait and fence-signaling submit calls: every tick
waits exactly once, on the current slot; it submits at most once, also on
the current slot; and when the acquire succeeds (possibly suboptimally) and
the submit call succeeds, it submits exactly once. -/
lemma drawFrame_tick_counts (s : FrameState) (t : TickInput)
    (hf : s.fences s.currentFrame ≠ FenceState.unsignaled) :
    (∀ i, countWait i (drawFrame s t).1 =
      if i = s.currentFrame then 1 else 0) ∧
    (∀ i, countSignalSubmit i (drawFrame s t).1 ≤
      if i = s.currentFrame then 1 else 0) ∧
    ((t.acquireResult = VkResult.success ∨
        t.acquireResult = VkResult.suboptimalKHR) → t.submitOk = true →
      ∀ i, countSignalSubmit i (drawFrame s t).1 =
        if i = s.currentFrame then 1 else 0) := by
  have hwaitLoc : ∀ (i : Nat) (rest : List Event),
      countWait i (Event.waitFence s.currentFrame
          (pendingFlag s s.currentFrame) :: rest) =
        countWait i rest + (if i = s.currentFrame then 1 else 0) := by
    intro i rest
    by_cases hi : i = s.currentFrame
    · subst hi; simp [countWait, List.countP_cons]
    · simp [countWait, List.countP_cons, hi, Ne.symm hi]
  rcases drawFrame_path s t hf with
    ⟨revs, ex, ha, hrec, heq⟩ | ⟨ha, hrec, heq⟩ | ⟨ha, heq⟩ | ⟨ha, hsub, heq⟩ |
    ⟨revs, ex, ha, hsub, hpr, hrec, heq⟩ | ⟨ha, hsub, hpr, hrec, heq⟩ |
    ⟨ha, hsub, hp, hflag, heq⟩ | ⟨ha, hsub, hp, hflag, heq⟩
  · obtain ⟨cw, cs, -⟩ := recreateSwapChain_counts _ _ _ hrec
    rw [heq]
    refine ⟨fun i => ?_, fun i => ?_, fun hacq _ i => ?_⟩
    · have hw := cw i
      simp only [countWait] at hw ⊢
      by_cases hi : i = s.currentFrame
      · subst hi; simp [List.countP_cons, hw]
      · simp [List.countP_cons, hw, hi, Ne.symm hi]
    · have hs := cs i
      simp only [countSignalSubmit] at hs ⊢
      simp [List.countP_cons, hs]
    · simp [ha] at hacq
  · rw [heq]
    refine ⟨fun i => ?_, fun i => ?_, fun hacq _ i => ?_⟩
    · rw [hwaitLoc]
      simp [countWait, List.countP_cons]
    · simp [countSignalSubmit, List.countP_cons]
    · simp [ha] at hacq
  · rw [heq]
    refine ⟨fun i => ?_, fun i => ?_, fun hacq _ i => ?_⟩
    · rw [hwaitLoc]
      simp [countWait, List.countP_cons]
    · simp [countSignalSubmit, List.countP_cons]
    · simp [ha] at hacq
  · rw [heq]
    refine ⟨fun i => ?_, fun i => ?_, fun _ hsubok i => ?_⟩
    · rw [hwaitLoc]
      simp [countWait, List.countP_cons]
    · simp [countSignalSubmit, List.countP_cons]
    · rw [hsub] at hsubok; cases hsubok
  · obtain ⟨cw, cs, -⟩ := recreateSwapChain_counts _ _ _ hrec
    rw [heq]
    refine ⟨fun i => ?_, fun i => ?_, fun _ _ i => ?_⟩
    · have hw := cw i
      simp only [countWait] at hw ⊢
      by_cases hi : i = s.currentFrame
      · subst hi; simp [List.countP_cons, List.countP_append, hw]
      · simp [List.countP_cons, List.countP_append, hw, hi, Ne.symm hi]
    · have hs := cs i
      simp only [countSignalSubmit] at hs ⊢
      by_cases hi : i = s.currentFrame
      · subst hi; simp [List.countP_cons, List.countP_append, hs]
      · simp [List.countP_cons, List.countP_append, hs, hi, Ne.symm hi]
    · have hs := cs i
      simp only [countSignalSubmit] at hs ⊢
      by_cases hi : i = s.currentFrame
      · subst hi; simp [List.countP_cons, List.countP_append, hs]
      · simp [List.countP_cons, List.countP_append, hs, hi, Ne.symm hi]
  · rw [heq]
    refine ⟨fun i => ?_, fun i => ?_, fun _ _ i => ?_⟩
    · rw [hwaitLoc]
      simp [countWait, List.countP_cons]
    · by_cases hi : i = s.currentFrame
      · subst hi; simp [countSignalSubmit, List.countP_cons]
      · simp [countSignalSubmit, List.countP_cons, hi, Ne.symm hi]
    · by_cases hi : i = s.currentFrame
      · subst hi; simp [countSignalSubmit, List.countP_cons]
      · simp [countSignalSubmit, List.countP_cons, hi, Ne.symm hi]
  · rw [heq]
    refine ⟨fun i => ?_, fun i => ?_, fun _ _ i => ?_⟩
    · rw [hwaitLoc]
      simp [countWait, List.countP_cons]
    · by_cases hi : i = s.currentFrame
      · subst hi; simp [countSignalSubmit, List.countP_cons]
      · simp [countSignalSubmit, List.countP_cons, hi, Ne.symm hi]
    · by_cases hi : i = s.currentFrame
      · subst hi; simp [countSignalSubmit, List.countP_cons]
      · simp [countSignalSubmit, List.countP_cons, hi, Ne.symm hi]
  · rw [heq]
    refine ⟨fun i => ?_, fun i => ?_, fun _ _ i => ?_⟩
    · rw [hwaitLoc]
      simp [countWait, List.countP_cons]
    · by_cases hi : i = s.currentFrame
      · subst hi; simp [countSignalSubmit, List.countP_cons]
      · simp [countSignalSubmit, List.countP_cons, hi, Ne.symm hi]
    · by_cases hi : i = s.currentFrame
      · subst hi; simp [countSignalSubmit, List.countP_cons]
      · simp [countSignalSubmit, List.countP_cons, hi, Ne.symm hi]

/-- Per-tick behaviour of the per-slot scans: a tick never resets or
re-records a command buffer whose submitted batch has not been waited on,
keeps every slot's outstanding count at most 1 at every point, and on a
normal return maps each slot's armed flag and outstanding count to the
slot's new fence state, which is never dead (`unsignaled`). -/
lemma drawFrame_tick_scans (s : FrameState) (t : TickInput)
    (hfa : ∀ i, s.fences i ≠ FenceState.unsignaled) :
    (∀ i, reuseBeforeWait i (drawFrame s t).1 (pendingFlag s i) = false) ∧
    (∀ i, boundedScan i (drawFrame s t).1 (pendingBit s i) = true) ∧
    (∀ s2, (drawFrame s t).2 = Except.ok s2 →
      (∀ i, armedAfter i (drawFrame s t).1 (pendingFlag s i) = pendingFlag s2 i) ∧
      (∀ i, outstandingAfter i (pendingBit s i) (drawFrame s t).1 = pendingBit s2 i) ∧
      (∀ i, s2.fences i ≠ FenceState.unsignaled)) := by
  have hble := pendingBit_le_one s
  rcases drawFrame_path s t (hfa s.currentFrame) with
    ⟨revs, ex, ha, hrec, heq⟩ | ⟨ha, hrec, heq⟩ | ⟨ha, heq⟩ | ⟨ha, hsub, heq⟩ |
    ⟨revs, ex, ha, hsub, hpr, hrec, heq⟩ | ⟨ha, hsub, hpr, hrec, heq⟩ |
    ⟨ha, hsub, hp, hflag, heq⟩ | ⟨ha, hsub, hp, hflag, heq⟩
  · -- out-of-date acquire, rebuild completes
    have hneu := recreateSwapChain_neutral _ _ _ hrec
    rw [heq]
    refine ⟨fun i => ?_, fun i => ?_, fun s2 h2 => ?_⟩
    · by_cases hi : i = s.currentFrame
      · subst hi
        simp [reuseBeforeWait, reuseBeforeWait_neutral _ _ hneu]
      · have hbeq : (s.currentFrame == i) = false := by
          simp [Ne.symm hi]
        simp [reuseBeforeWait, hbeq, reuseBeforeWait_neutral _ _ hneu]
    · by_cases hi : i = s.currentFrame
      · subst hi
        simp [boundedScan, outstandingStep,
          boundedScan_neutral _ _ hneu, hble]
      · simp [boundedScan, outstandingStep, Ne.symm hi,
          boundedScan_neutral _ _ hneu, hble]
    · simp only [Except.ok.injEq] at h2
      subst h2
      refine ⟨fun i => ?_, fun i => ?_, fun i => ?_⟩
      · by_cases hi : i = s.currentFrame
        · subst hi
          simp [armedAfter, armedAfter_neutral _ _ hneu, pendingFlag,
            setFence_same]
        · have hbeq : (s.currentFrame == i) = false := by
            simp [Ne.symm hi]
          simp [armedAfter, hbeq, armedAfter_neutral _ _ hneu, pendingFlag,
            setFence_other _ _ _ _ hi]
      · by_cases hi : i = s.currentFrame
        · subst hi
          simp [outstandingAfter, outstandingStep,
            foldl_outstanding_neutral _ _ hneu, pendingBit, setFence_same]
        · simp [outstandingAfter, outstandingStep, Ne.symm hi,
            foldl_outstanding_neutral _ _ hneu, pendingBit,
            setFence_other _ _ _ _ hi]
      · by_cases hi : i = s.currentFrame
        · subst hi
          simp [setFence_same]
        · simp [setFence_other _ _ _ _ hi, hfa i]
  · -- out-of-date acquire, rebuild blocks
    rw [heq]
    refine ⟨fun i => ?_, fun i => ?_, fun s2 h2 => ?_⟩
    · by_cases hi : i = s.currentFrame
      · subst hi
        simp [reuseBeforeWait]
      · have hbeq : (s.currentFrame == i) = false := by
          simp [Ne.symm hi]
        simp [reuseBeforeWait, hbeq]
    · by_cases hi : i = s.currentFrame
      · subst hi
        simp [boundedScan, outstandingStep, hble]
      · simp [boundedScan, outstandingStep, Ne.symm hi, hble]
    · simp at h2
  · -- fatal acquire
    rw [heq]
    refine ⟨fun i => ?_, fun i => ?_, fun s2 h2 => ?_⟩
    · by_cases hi : i = s.currentFrame
      · subst hi
        simp [reuseBeforeWait]
      · have hbeq : (s.currentFrame == i) = false := by
          simp [Ne.symm hi]
        simp [reuseBeforeWait, hbeq]
    · by_cases hi : i = s.currentFrame
      · subst hi
        simp [boundedScan, outstandingStep, hble]
      · simp [boundedScan, outstandingStep, Ne.symm hi, hble]
    · simp at h2
  · -- failed submit
    rw [heq]
    refine ⟨fun i => ?_, fun i => ?_, fun s2 h2 => ?_⟩
    · by_cases hi : i = s.currentFrame
      · subst hi
        simp [reuseBeforeWait]
      · have hbeq : (s.currentFrame == i) = false := by
          simp [Ne.symm hi]
        simp [reuseBeforeWait, hbeq]
    · by_cases hi : i = s.currentFrame
      · subst hi
        simp [boundedScan, outstandingStep, hble]
      · simp [boundedScan, outstandingStep, Ne.symm hi, hble]
    · simp at h2
  · -- successful tick, rebuild after present completes
    have hneu := recreateSwapChain_neutral _ _ _ hrec
    rw [heq]
    refine ⟨fun i => ?_, fun i => ?_, fun s2 h2 => ?_⟩
    · by_cases hi : i = s.currentFrame
      · subst hi
        simp [reuseBeforeWait, reuseBeforeWait_neutral _ _ hneu]
      · have hbeq : (s.currentFrame == i) = false := by
          simp [Ne.symm hi]
        simp [reuseBeforeWait, hbeq, reuseBeforeWait_neutral _ _ hneu]
    · by_cases hi : i = s.currentFrame
      · subst hi
        simp [boundedScan, outstandingStep,
          boundedScan_neutral _ _ hneu, hble]
      · simp [boundedScan, outstandingStep, Ne.symm hi,
          boundedScan_neutral _ _ hneu, hble]
    · simp only [Except.ok.injEq] at h2
      subst h2
      refine ⟨fun i => ?_, fun i => ?_, fun i => ?_⟩
      · by_cases hi : i = s.currentFrame
        · subst hi
          simp [armedAfter, armedAfter_neutral _ _ hneu, pendingFlag,
            setFence_same]
        · have hbeq : (s.currentFrame == i) = false := by
            simp [Ne.symm hi]
          simp [armedAfter, hbeq, armedAfter_neutral _ _ hneu, pendingFlag,
            setFence_other _ _ _ _ hi]
      · by_cases hi : i = s.currentFrame
        · subst hi
          simp [outstandingAfter, outstandingStep,
            foldl_outstanding_neutral _ _ hneu, pendingBit, setFence_same]
        · simp [outstandingAfter, outstandingStep, Ne.symm hi,
            foldl_outstanding_neutral _ _ hneu, pendingBit,
            setFence_other _ _ _ _ hi]
      · by_cases hi : i = s.currentFrame
        · subst hi
          simp [setFence_same]
        · simp [setFence_other _ _ _ _ hi, hfa i]
  · -- successful tick, rebuild after present blocks
    rw [heq]
    refine ⟨fun i => ?_, fun i => ?_, fun s2 h2 => ?_⟩
    · by_cases hi : i = s.currentFrame
      · subst hi
        simp [reuseBeforeWait]
      · have hbeq : (s.currentFrame == i) = false := by
          simp [Ne.symm hi]
        simp [reuseBeforeWait, hbeq]
    · by_cases hi : i = s.currentFrame
      · subst hi
        simp [boundedScan, outstandingStep, hble]
      · simp [boundedScan, outstandingStep, Ne.symm hi, hble]
    · simp at h2
  · -- fatal present
    rw [heq]
    refine ⟨fun i => ?_, fun i => ?_, fun s2 h2 => ?_⟩
    · by_cases hi : i = s.currentFrame
      · subst hi
        simp [reuseBeforeWait]
      · have hbeq : (s.currentFrame == i) = false := by
          simp [Ne.symm hi]
        simp [reuseBeforeWait, hbeq]
    · by_cases hi : i = s.currentFrame
      · subst hi
        simp [boundedScan, outstandingStep, hble]
      · simp [boundedScan, outstandingStep, Ne.symm hi, hble]
    · simp at h2
  · -- plain successful tick
    rw [heq]
    refine ⟨fun i => ?_, fun i => ?_, fun s2 h2 => ?_⟩
    · by_cases hi : i = s.currentFrame
      · subst hi
        simp [reuseBeforeWait]
      · have hbeq : (s.currentFrame == i) = false := by
          simp [Ne.symm hi]
        simp [reuseBeforeWait, hbeq]
    · by_cases hi : i = s.currentFrame
      · subst hi
        simp [boundedScan, outstandingStep, hble]
      · simp [boundedScan, outstandingStep, Ne.symm hi, hble]
    · simp only [Except.ok.injEq] at h2
      subst h2
      refine ⟨fun i => ?_, fun i => ?_, fun i => ?_⟩
      · by_cases hi : i = s.currentFrame
        · subst hi
          simp [armedAfter, pendingFlag, setFence_same]
        · have hbeq : (s.currentFrame == i) = false := by
            simp [Ne.symm hi]
          simp [armedAfter, hbeq, pendingFlag, setFence_other _ _ _ _ hi]
      · by_cases hi : i = s.currentFrame
        · subst hi
          simp [outstandingAfter, outstandingStep, pendingBit, setFence_same]
        · simp [outstandingAfter, outstandingStep, Ne.symm hi, pendingBit,
            setFence_other _ _ _ _ hi]
      · by_cases hi : i = s.currentFrame
        · subst hi
          simp [setFence_same]
        · simp [setFence_other _ _ _ _ hi, hfa i]

/-- No waits in an empty trace. -/
lemma countWait_nil (i : Nat) : countWait i [] = 0 := rfl

/-- No submits in an empty trace. -/
lemma countSignalSubmit_nil (i : Nat) : countSignalSubmit i [] = 0 := rfl

/-- Wait counts add over trace concatenation. -/
lemma countWait_append (i : Nat) (a b : List Event) :
    countWait i (a ++ b) = countWait i a + countWait i b := by
  simp [countWait, List.countP_append]

/-- Fence-signaling submit counts add over trace concatenation. -/
lemma countSignalSubmit_append (i : Nat) (a b : List Event) :
    countSignalSubmit i (a ++ b) =
      countSignalSubmit i a + countSignalSubmit i b := by
  simp [countSignalSubmit, List.countP_append]

/-- Polling events preserves each slot's armed flag. -/
lemma pollEvents_pendingFlag (s : FrameState) (r : Bool) (i : Nat) :
    pendingFlag (pollEvents s r) i = pendingFlag s i := by
  simp [pendingFlag, pollEvents_fences]

/-- Polling events preserves each slot's outstanding count. -/
lemma pollEvents_pendingBit (s : FrameState) (r : Bool) (i : Nat) :
    pendingBit (pollEvents s r) i = pendingBit s i := by
  simp [pendingBit, pollEvents_fences]

/-- Run-level synchronization invariants, generalized over the starting
state: per slot, fence-signaling submits never outnumber fence waits; on a
run whose every tick acquires successfully and submits successfully the two
counts are equal per slot; no slot's command buffer is ever reset or
re-recorded while its fence is armed; and no slot ever exceeds one
outstanding batch at any point. -/
lemma run_invariants (inputs : List TickInput) :
    ∀ s : FrameState, (∀ i, s.fences i ≠ FenceState.unsignaled) →
      (∀ i, countSignalSubmit i (runTrace s inputs) ≤
        countWait i (runTrace s inputs)) ∧
      ((∀ t ∈ inputs, (t.acquireResult = VkResult.success ∨
          t.acquireResult = VkResult.suboptimalKHR) ∧ t.submitOk = true) →
        ∀ i, countWait i (runTrace s inputs) =
          countSignalSubmit i (runTrace s inputs)) ∧
      (∀ i, reuseBeforeWait i (runTrace s inputs) (pendingFlag s i) = false) ∧
      (∀ i, boundedScan i (runTrace s inputs) (pendingBit s i) = true) := by
  induction inputs with
  | nil =>
    intro s hfa
    refine ⟨fun i => ?_, fun _ i => ?_, fun i => ?_, fun i => ?_⟩ <;>
      simp [runTrace, runTraces, countWait, countSignalSubmit, reuseBeforeWait,
        boundedScan, pendingBit_le_one s i]
  | cons t ts ih =>
    intro s hfa
    have hfa1 : ∀ i,
        (pollEvents s t.resizeEvent).fences i ≠ FenceState.unsignaled := by
      intro i; rw [pollEvents_fences]; exact hfa i
    obtain ⟨cwait, csub, cgood⟩ :=
      drawFrame_tick_counts (pollEvents s t.resizeEvent) t (hfa1 _)
    obtain ⟨rscan, bscan, okfacts⟩ :=
      drawFrame_tick_scans (pollEvents s t.resizeEvent) t hfa1
    rcases hdf : drawFrame (pollEvents s t.resizeEvent) t with ⟨evs, r⟩
    rw [hdf] at cwait csub cgood rscan bscan okfacts
    simp only at cwait csub cgood rscan bscan okfacts
    cases r with
    | error e =>
      have hrt : runTrace s (t :: ts) = evs ++ [] := by
        simp [runTrace, runTraces, hdf]
      rw [hrt]
      refine ⟨fun i => ?_, fun hg i => ?_, fun i => ?_, fun i => ?_⟩
      · rw [countWait_append, countSignalSubmit_append, countWait_nil,
          countSignalSubmit_nil]
        have h1 := (csub i).trans (le_of_eq (cwait i).symm)
        omega
      · obtain ⟨hacq, hsub⟩ := hg t (List.mem_cons_self t ts)
        rw [countWait_append, countSignalSubmit_append, countWait_nil,
          countSignalSubmit_nil, cwait i, cgood hacq hsub i]
      · rw [List.append_nil, ← pollEvents_pendingFlag s t.resizeEvent i]
        exact rscan i
      · rw [List.append_nil, ← pollEvents_pendingBit s t.resizeEvent i]
        exact bscan i
    | ok s2 =>
      obtain ⟨harm, hout, hfa2⟩ := okfacts s2 rfl
      obtain ⟨ih1, ih2, ih3, ih4⟩ := ih s2 hfa2
      have hrt : runTrace s (t :: ts) = evs ++ runTrace s2 ts := by
        simp [runTrace, runTraces, hdf]
      rw [hrt]
      refine ⟨fun i => ?_, fun hg i => ?_, fun i => ?_, fun i => ?_⟩
      · rw [countWait_append, countSignalSubmit_append]
        exact Nat.add_le_add ((csub i).trans (le_of_eq (cwait i).symm)) (ih1 i)
      · obtain ⟨hacq, hsub⟩ := hg t (List.mem_cons_self t ts)
        have hgood : ∀ x ∈ ts, (x.acquireResult = VkResult.success ∨
            x.acquireResult = VkResult.suboptimalKHR) ∧ x.submitOk = true :=
          fun x hx => hg x (List.mem_cons_of_mem t hx)
        rw [countWait_append, countSignalSubmit_append, cwait i,
          cgood hacq hsub i, ih2 hgood i]
      · rw [reuseBeforeWait_append, ← pollEvents_pendingFlag s t.resizeEvent i]
        rw [rscan i, harm i, Bool.false_or]
        exact ih3 i
      · rw [boundedScan_append, ← pollEvents_pendingBit s t.resizeEvent i]
        rw [bscan i, Bool.true_and]
        have hfold : evs.foldl (outstandingStep i)
            (pendingBit (pollEvents s t.resizeEvent) i) = pendingBit s2 i :=
          hout i
        rw [hfold]
        exact ih4 i

/-- C1 (amended): over every run of ticks from the initial state, each
slot's submitted-but-not-completed batch count never exceeds 1 at any point
of the trace, so at most `MAX_FRAMES_IN_FLIGHT = 2` command buffers are
concurrently submitted-but-not-completed across the two slots; slot `i`'s
command buffer is never reset or re-recorded while a submitted batch
signaling slot `i`'s fence has not yet been waited for; and per slot the
number of fence-signaling submits never exceeds the number of fence waits,
with equality over every run all of whose ticks acquire successfully
(possibly suboptimally) and submit successfully.  (The claim's unqualified
per-slot equality of wait and submit counts fails on ticks aborted by an
out-of-date acquire, which wait without submitting; see the
counterexample.) -/
theorem framesInFlightBound (inputs : List TickInput) :
    (∀ i n, ((runTrace initState inputs).take n).foldl (outstandingStep i) 0 ≤ 1) ∧
    (∀ n, ((runTrace initState inputs).take n).foldl (outstandingStep 0) 0 +
        ((runTrace initState inputs).take n).foldl (outstandingStep 1) 0 ≤
      MAX_FRAMES_IN_FLIGHT) ∧
    (∀ i, reuseBeforeWait i (runTrace initState inputs) false = false) ∧
    (∀ i, countSignalSubmit i (runTrace initState inputs) ≤
      countWait i (runTrace initState inputs)) ∧
    ((∀ t ∈ inputs, (t.acquireResult = VkResult.success ∨
        t.acquireResult = VkResult.suboptimalKHR) ∧ t.submitOk = true) →
      ∀ i, countWait i (runTrace initState inputs) =
        countSignalSubmit i (runTrace initState inputs)) := by
  obtain ⟨h1, h2, h3, h4⟩ := run_invariants inputs initState
    (by intro i; simp [initState])
  have hbound : ∀ i n,
      ((runTrace initState inputs).take n).foldl (outstandingStep i) 0 ≤ 1 :=
    fun i n => (boundedScan_iff i (runTrace initState inputs) 0).mp (h4 i) n
  refine ⟨hbound, fun n => ?_, fun i => h3 i, h1, h2⟩
  have hb0 := hbound 0 n
  have hb1 := hbound 1 n
  simp only [MAX_FRAMES_IN_FLIGHT]
  omega

/-- C1 counterexample: a single tick whose acquire reports out-of-date
waits on slot 0's fence but never submits, so over that run prefix slot 0
has one fence wait and zero fence-signaling submits — the claim's per-slot
equality of wait and submit counts is violated. -/
theorem framesInFlightBound_cex :
    countWait 0 (runTrace initState
      [{ resizeEvent := false, acquireResult := VkResult.errorOutOfDateKHR,
         imageIndex := 0, submitOk := true,
         presentResult := VkResult.success,
         acquireExtents := [⟨800, 600⟩], presentExtents := [] }]) = 1 ∧
    countSignalSubmit 0 (runTrace initState
      [{ resizeEvent := false, acquireResult := VkResult.errorOutOfDateKHR,
         imageIndex := 0, submitOk := true,
         presentResult := VkResult.success,
         acquireExtents := [⟨800, 600⟩], presentExtents := [] }]) = 0 := by
  decide

/-- Witness for C1's theorem: on a concrete two-tick run whose ticks all
acquire and submit successfully, slot 0's wait count equals its
fence-signaling submit count. -/
theorem framesInFlightBound_witness :
    countWait 0 (runTrace initState
      [{ resizeEvent := false, acquireResult := VkResult.success,
         imageIndex := 0, submitOk := true,
         presentResult := VkResult.success,
         acquireExtents := [], presentExtents := [] },
       { resizeEvent := false, acquireResult := VkResult.success,
         imageIndex := 1, submitOk := true,
         presentResult := VkResult.success,
         acquireExtents := [], presentExtents := [] }]) =
    countSignalSubmit 0 (runTrace initState
      [{ resizeEvent := false, acquireResult := VkResult.success,
         imageIndex := 0, submitOk := true,
         presentResult := VkResult.success,
         acquireExtents := [], presentExtents := [] },
       { resizeEvent := false, acquireResult := VkResult.success,
         imageIndex := 1, submitOk := true,
         presentResult := VkResult.success,
         acquireExtents := [], presentExtents := [] }]) :=
  (framesInFlightBound
      [{ resizeEvent := false, acquireResult := VkResult.success,
         imageIndex := 0, submitOk := true,
         presentResult := VkResult.success,
         acquireExtents := [], presentExtents := [] },
       { resizeEvent := false, acquireResult := VkResult.success,
         imageIndex := 1, submitOk := true,
         presentResult := VkResult.success,
         acquireExtents := [], presentExtents := [] }]).2.2.2.2
    (by decide) 0

/-- A tick whose current slot's fence is already signaled performs no
blocking fence wait. -/
lemma drawFrame_blockedWait (s : FrameState) (t : TickInput)
    (hsig : s.fences s.currentFrame = FenceState.signaled) :
    countBlockedWait (drawFrame s t).1 = 0 := by
  have hf : s.fences s.currentFrame ≠ FenceState.unsignaled := by
    rw [hsig]; simp
  have hpf : pendingFlag s s.currentFrame = false := by
    simp [pendingFlag, hsig]
  rcases drawFrame_path s t hf with
    ⟨revs, ex, ha, hrec, heq⟩ | ⟨ha, hrec, heq⟩ | ⟨ha, heq⟩ | ⟨ha, hsub, heq⟩ |
    ⟨revs, ex, ha, hsub, hpr, hrec, heq⟩ | ⟨ha, hsub, hpr, hrec, heq⟩ |
    ⟨ha, hsub, hp, hflag, heq⟩ | ⟨ha, hsub, hp, hflag, heq⟩ <;>
  rw [heq] <;>
  first
    | (simp [countBlockedWait, List.countP_cons, hpf]; done)
    | (obtain ⟨-, -, -, -, -, -, -, cb, -⟩ := recreateSwapChain_counts _ _ _ hrec
       simp only [countBlockedWait] at cb ⊢
       simp [List.countP_cons, List.countP_append, hpf, cb])

/-- If every fence is signaled before a tick and the tick returns normally,
the new current slot's fence is again signaled (the advanced slot was not
touched; an aborted tick leaves the same slot signaled). -/
lemma drawFrame_ok_curSignaled (s : FrameState) (t : TickInput)
    (s2 : FrameState) (hall : ∀ i, s.fences i = FenceState.signaled)
    (h : (drawFrame s t).2 = Except.ok s2) :
    s2.fences s2.currentFrame = FenceState.signaled := by
  have hf : s.fences s.currentFrame ≠ FenceState.unsignaled := by
    rw [hall s.currentFrame]; simp
  rcases drawFrame_path s t hf with
    ⟨revs, ex, ha, hrec, heq⟩ | ⟨ha, hrec, heq⟩ | ⟨ha, heq⟩ | ⟨ha, hsub, heq⟩ |
    ⟨revs, ex, ha, hsub, hpr, hrec, heq⟩ | ⟨ha, hsub, hpr, hrec, heq⟩ |
    ⟨ha, hsub, hp, hflag, heq⟩ | ⟨ha, hsub, hp, hflag, heq⟩ <;>
  rw [heq] at h <;> simp only [Except.ok.injEq] at h <;> first
    | (subst h
       simp [setFence_same, setFence_other _ _ _ _ (next_slot_ne s.currentFrame),
         hall])
    | cases h

/-- C9: every in-flight fence is created signaled
(`VK_FENCE_CREATE_SIGNALED_BIT`), so over the first
`MAX_FRAMES_IN_FLIGHT = 2` ticks of any run from the initial state no
fence wait ever blocks: each slot's very first wait returns immediately
without any prior submission having signaled that fence. -/
theorem firstFramesNeverBlock (inputs : List TickInput) :
    countBlockedWait
      (((runTraces initState inputs).take MAX_FRAMES_IN_FLIGHT).flatten) = 0 := by
  rcases inputs with _ | ⟨t1, ts⟩
  · rfl
  · have hall1 : ∀ i,
        (pollEvents initState t1.resizeEvent).fences i = FenceState.signaled := by
      intro i; rw [pollEvents_fences]; rfl
    have hb1 : countBlockedWait
        (drawFrame (pollEvents initState t1.resizeEvent) t1).1 = 0 :=
      drawFrame_blockedWait _ _ (hall1 _)
    rcases hdf1 : drawFrame (pollEvents initState t1.resizeEvent) t1 with ⟨evs1, r1⟩
    rw [hdf1] at hb1
    simp only at hb1
    simp only [countBlockedWait] at hb1
    cases r1 with
    | error e =>
      simp only [runTraces, hdf1, MAX_FRAMES_IN_FLIGHT, List.take_succ_cons,
        List.take_nil, List.flatten_cons, List.flatten_nil, List.append_nil,
        countBlockedWait]
      exact hb1
    | ok s2 =>
      rcases ts with _ | ⟨t2, ts2⟩
      · simp only [runTraces, hdf1, MAX_FRAMES_IN_FLIGHT, List.take_succ_cons,
          List.take_nil, List.flatten_cons, List.flatten_nil, List.append_nil,
          countBlockedWait]
        exact hb1
      · have hcur2 : s2.fences s2.currentFrame = FenceState.signaled :=
          drawFrame_ok_curSignaled _ _ _ hall1 (by rw [hdf1])
        have hall2 : (pollEvents s2 t2.resizeEvent).fences
            ((pollEvents s2 t2.resizeEvent).currentFrame) = FenceState.signaled := by
          rw [pollEvents_fences, pollEvents_currentFrame]; exact hcur2
        have hb2 : countBlockedWait
            (drawFrame (pollEvents s2 t2.resizeEvent) t2).1 = 0 :=
          drawFrame_blockedWait _ _ hall2
        rcases hdf2 : drawFrame (pollEvents s2 t2.resizeEvent) t2 with ⟨evs2, r2⟩
        rw [hdf2] at hb2
        simp only at hb2
        simp only [countBlockedWait] at hb2
        cases r2 <;>
          (simp only [runTraces, hdf1, hdf2, MAX_FRAMES_IN_FLIGHT,
            List.take_succ_cons, List.take_nil, List.take_zero,
            List.flatten_cons, List.flatten_nil, List.append_nil,
            countBlockedWait, List.countP_append]
           omega)

/-- A tick beginning with a signaled fence starts (in program order) with a
non-blocking wait on the current slot. -/
lemma drawFrame_head (s : FrameState) (t : TickInput)
    (hsig : s.fences s.currentFrame = FenceState.signaled) :
    ((drawFrame s t).1).head? =
      some (Event.waitFence s.currentFrame false) := by
  have hf : s.fences s.currentFrame ≠ FenceState.unsignaled := by
    rw [hsig]; simp
  have hpf : pendingFlag s s.currentFrame = false := by
    simp [pendingFlag, hsig]
  rcases drawFrame_path s t hf with
    ⟨revs, ex, ha, hrec, heq⟩ | ⟨ha, hrec, heq⟩ | ⟨ha, heq⟩ | ⟨ha, hsub, heq⟩ |
    ⟨revs, ex, ha, hsub, hpr, hrec, heq⟩ | ⟨ha, hsub, hpr, hrec, heq⟩ |
    ⟨ha, hsub, hp, hflag, heq⟩ | ⟨ha, hsub, hp, hflag, heq⟩ <;>
  rw [heq] <;> simp [hpf]

/-- C2: a tick whose image acquire reports the surface out-of-date performs
exactly one swapchain rebuild and short-circuits: no command buffer is
reset or recorded, no fence is reset, nothing is submitted and nothing is
presented during that tick, and the tick returns normally (with the slot
index unchanged) so the loop proceeds to the next tick. -/
theorem outOfDateAcquireTick (s : FrameState) (t : TickInput)
    (hf : s.fences s.currentFrame ≠ FenceState.unsignaled)
    (hood : t.acquireResult = VkResult.errorOutOfDateKHR)
    (revs : List Event) (ex : VkExtent2D)
    (hrec : recreateSwapChain t.acquireExtents = some (revs, ex)) :
    countCreateSwapchainCalls (drawFrame s t).1 = 1 ∧
    countResetCommandBufferCalls (drawFrame s t).1 = 0 ∧
    countRecordCalls (drawFrame s t).1 = 0 ∧
    countSubmitCalls (drawFrame s t).1 = 0 ∧
    countPresentCalls (drawFrame s t).1 = 0 ∧
    countResetFenceCalls (drawFrame s t).1 = 0 ∧
    (drawFrame s t).2 = Except.ok
      { s with fences := setFence s.fences s.currentFrame FenceState.signaled } := by
  rcases drawFrame_path s t hf with
    ⟨revs', ex', ha, hrec', heq⟩ | ⟨ha, hrec', heq⟩ | ⟨ha, heq⟩ |
    ⟨ha, hsub, heq⟩ | ⟨revs', ex', ha, hsub, hpr, hrec', heq⟩ |
    ⟨ha, hsub, hpr, hrec', heq⟩ | ⟨ha, hsub, hp, hflag, heq⟩ |
    ⟨ha, hsub, hp, hflag, heq⟩
  · have hre := hrec.symm.trans hrec'
    simp only [Option.some.injEq, Prod.mk.injEq] at hre
    obtain ⟨rfl, rfl⟩ := hre
    rw [heq]
    obtain ⟨-, -, c3, c4, c5, c6, c7, -, c9⟩ :=
      recreateSwapChain_counts _ _ _ hrec
    refine ⟨?_, ?_, ?_, ?_, ?_, ?_, rfl⟩
    · simp only [countCreateSwapchainCalls] at c9 ⊢
      simp [List.countP_cons, c9]
    · simp only [countResetCommandBufferCalls] at c5 ⊢
      simp [List.countP_cons, c5]
    · simp only [countRecordCalls] at c6 ⊢
      simp [List.countP_cons, c6]
    · simp only [countSubmitCalls] at c3 ⊢
      simp [List.countP_cons, c3]
    · simp only [countPresentCalls] at c7 ⊢
      simp [List.countP_cons, c7]
    · simp only [countResetFenceCalls] at c4 ⊢
      simp [List.countP_cons, c4]
  · rw [hrec] at hrec'; cases hrec'
  · simp [hood] at ha
  · rcases ha with h | h <;> simp [hood] at h
  · rcases ha with h | h <;> simp [hood] at h
  · rcases ha with h | h <;> simp [hood] at h
  · rcases ha with h | h <;> simp [hood] at h
  · rcases ha with h | h <;> simp [hood] at h

/-- Witness for C2's theorem: at the initial state, an out-of-date acquire
with a single nonzero framebuffer read rebuilds once and performs no
recording, submission or presentation. -/
theorem outOfDateAcquireTick_witness :
    countCreateSwapchainCalls (drawFrame initState
      { resizeEvent := false, acquireResult := VkResult.errorOutOfDateKHR,
        imageIndex := 0, submitOk := true,
        presentResult := VkResult.success,
        acquireExtents := [⟨800, 600⟩], presentExtents := [] }).1 = 1 ∧
    countSubmitCalls (drawFrame initState
      { resizeEvent := false, acquireResult := VkResult.errorOutOfDateKHR,
        imageIndex := 0, submitOk := true,
        presentResult := VkResult.success,
        acquireExtents := [⟨800, 600⟩], presentExtents := [] }).1 = 0 := by
  have h := outOfDateAcquireTick initState
    { resizeEvent := false, acquireResult := VkResult.errorOutOfDateKHR,
      imageIndex := 0, submitOk := true,
      presentResult := VkResult.success,
      acquireExtents := [⟨800, 600⟩], presentExtents := [] }
    (by decide) rfl
    [Event.getFramebufferSize ⟨800, 600⟩, Event.deviceWaitIdle,
     Event.destroyFramebuffers, Event.destroyImageViews,
     Event.destroySwapchain, Event.createSwapchain ⟨800, 600⟩,
     Event.createImageViews, Event.createFramebuffers] ⟨800, 600⟩ rfl
  exact ⟨h.1, h.2.2.2.1⟩

/-- C3: every completed rebuild follows the ordered protocol — it first
reads framebuffer sizes, waiting for events while the size is (0,0) and
not proceeding until a nonzero size is observed; it then waits for the
device to go idle strictly before destroying the framebuffers, image views
and swapchain; it then recreates swapchain, image views and framebuffers
against the observed (first nonzero) extent, performing exactly one
`createSwapChain`.  The synthetic read sequence (0,0), (0,0), (800,600)
yields exactly one rebuild using (800,600). -/
theorem recreateProtocol :
    (∀ exts evs ex, recreateSwapChain exts = some (evs, ex) →
      ∃ pollEvs,
        evs = pollEvs ++
          [Event.deviceWaitIdle, Event.destroyFramebuffers,
           Event.destroyImageViews, Event.destroySwapchain,
           Event.createSwapchain ex, Event.createImageViews,
           Event.createFramebuffers] ∧
        (∀ e ∈ pollEvs,
          (∃ x, e = Event.getFramebufferSize x) ∨ e = Event.waitEvents) ∧
        (∀ x, Event.getFramebufferSize x ∈ pollEvs →
          x = ex ∨ (x.width = 0 ∧ x.height = 0)) ∧
        exts.find? (fun x => decide ¬(x.width = 0 ∧ x.height = 0)) = some ex ∧
        ¬(ex.width = 0 ∧ ex.height = 0) ∧
        countCreateSwapchainCalls evs = 1) ∧
    recreateSwapChain [⟨0, 0⟩, ⟨0, 0⟩, ⟨800, 600⟩] =
      some ([Event.getFramebufferSize ⟨0, 0⟩, Event.waitEvents,
             Event.getFramebufferSize ⟨0, 0⟩, Event.waitEvents,
             Event.getFramebufferSize ⟨800, 600⟩,
             Event.deviceWaitIdle, Event.destroyFramebuffers,
             Event.destroyImageViews, Event.destroySwapchain,
             Event.createSwapchain ⟨800, 600⟩, Event.createImageViews,
             Event.createFramebuffers], ⟨800, 600⟩) := by
  constructor
  · intro exts evs ex h
    obtain ⟨pe, hrl, he⟩ := recreateSwapChain_spec exts evs ex h
    obtain ⟨m1, m2, m3, m4⟩ := recreateLoop_spec exts pe ex hrl
    obtain ⟨-, -, -, -, -, -, -, -, c9⟩ := recreateSwapChain_counts exts evs ex h
    exact ⟨pe, he, m1, m3, m2, m4, c9⟩
  · rfl

/-- Witness for C3's theorem: instantiating the protocol at the synthetic
(0,0), (0,0), (800,600) read sequence shows its trace rebuilds exactly
once and selects (800,600). -/
theorem recreateProtocol_witness :
    countCreateSwapchainCalls
      [Event.getFramebufferSize ⟨0, 0⟩, Event.waitEvents,
       Event.getFramebufferSize ⟨0, 0⟩, Event.waitEvents,
       Event.getFramebufferSize ⟨800, 600⟩,
       Event.deviceWaitIdle, Event.destroyFramebuffers,
       Event.destroyImageViews, Event.destroySwapchain,
       Event.createSwapchain ⟨800, 600⟩, Event.createImageViews,
       Event.createFramebuffers] = 1 ∧
    List.find? (fun x => decide ¬(x.width = 0 ∧ x.height = 0))
      [(⟨0, 0⟩ : VkExtent2D), ⟨0, 0⟩, ⟨800, 600⟩] = some ⟨800, 600⟩ := by
  obtain ⟨-, -, -, -, hfind, -, hcount⟩ :=
    recreateProtocol.1 [⟨0, 0⟩, ⟨0, 0⟩, ⟨800, 600⟩] _ ⟨800, 600⟩
      recreateProtocol.2
  exact ⟨hcount, hfind⟩

/-- C4: for a tick that reaches the present step (successful or suboptimal
acquire, successful submit): if the present call returns out-of-date or
suboptimal, or the sticky resize flag is set, the flag is cleared and the
swapchain is rebuilt exactly once; any other non-success present result
makes the tick fail fatally; and on a success result with the flag clear
neither a rebuild nor a failure happens. -/
theorem presentResultHandling (s : FrameState) (t : TickInput)
    (hf : s.fences s.currentFrame ≠ FenceState.unsignaled)
    (hacq : t.acquireResult = VkResult.success ∨
      t.acquireResult = VkResult.suboptimalKHR)
    (hsub : t.submitOk = true) :
    ((t.presentResult = VkResult.errorOutOfDateKHR ∨
        t.presentResult = VkResult.suboptimalKHR ∨
        s.framebufferResized = true) →
      ∀ revs ex, recreateSwapChain t.presentExtents = some (revs, ex) →
        ∃ s2, (drawFrame s t).2 = Except.ok s2 ∧
          s2.framebufferResized = false ∧
          countCreateSwapchainCalls (drawFrame s t).1 = 1) ∧
    ((t.presentResult = VkResult.errorOther ∧
        s.framebufferResized = false) →
      (drawFrame s t).2 = Except.error VkError.presentFailed ∧
      countCreateSwapchainCalls (drawFrame s t).1 = 0) ∧
    ((t.presentResult = VkResult.success ∧ s.framebufferResized = false) →
      ∃ s2, (drawFrame s t).2 = Except.ok s2 ∧
        s2.framebufferResized = false ∧
        countCreateSwapchainCalls (drawFrame s t).1 = 0) := by
  rcases drawFrame_path s t hf with
    ⟨revs', ex', ha, hrec', heq⟩ | ⟨ha, hrec', heq⟩ | ⟨ha, heq⟩ |
    ⟨ha, hsub', heq⟩ | ⟨revs', ex', ha, hsub', hpr, hrec', heq⟩ |
    ⟨ha, hsub', hpr, hrec', heq⟩ | ⟨ha, hsub', hp, hflag, heq⟩ |
    ⟨ha, hsub', hp, hflag, heq⟩
  · rcases hacq with h | h <;> simp [ha] at h
  · rcases hacq with h | h <;> simp [ha] at h
  · rcases hacq with h | h <;> simp [ha] at h
  · rw [hsub] at hsub'; cases hsub'
  · refine ⟨fun _ revs2 ex2 hrec2 => ?_, fun hother => ?_, fun hsucc => ?_⟩
    · have hre := hrec'.symm.trans hrec2
      simp only [Option.some.injEq, Prod.mk.injEq] at hre
      obtain ⟨rfl, rfl⟩ := hre
      rw [heq]
      obtain ⟨-, -, -, -, -, -, -, -, c9⟩ :=
        recreateSwapChain_counts _ _ _ hrec'
      refine ⟨_, rfl, rfl, ?_⟩
      simp only [countCreateSwapchainCalls] at c9 ⊢
      simp [List.countP_cons, c9]
    · exfalso
      rcases hpr with h | h | h
      · simp [hother.1] at h
      · simp [hother.1] at h
      · simp [hother.2] at h
    · exfalso
      rcases hpr with h | h | h
      · simp [hsucc.1] at h
      · simp [hsucc.1] at h
      · simp [hsucc.2] at h
  · refine ⟨fun _ revs2 ex2 hrec2 => ?_, fun hother => ?_, fun hsucc => ?_⟩
    · rw [hrec2] at hrec'; cases hrec'
    · exfalso
      rcases hpr with h | h | h
      · simp [hother.1] at h
      · simp [hother.1] at h
      · simp [hother.2] at h
    · exfalso
      rcases hpr with h | h | h
      · simp [hsucc.1] at h
      · simp [hsucc.1] at h
      · simp [hsucc.2] at h
  · refine ⟨fun hcond _ _ _ => ?_, fun _ => ?_, fun hsucc => ?_⟩
    · exfalso
      rcases hcond with h | h | h
      · simp [hp] at h
      · simp [hp] at h
      · simp [hflag] at h
    · rw [heq]
      exact ⟨rfl, by simp [countCreateSwapchainCalls, List.countP_cons]⟩
    · exfalso
      simp [hp] at hsucc
  · refine ⟨fun hcond _ _ _ => ?_, fun hother => ?_, fun _ => ?_⟩
    · exfalso
      rcases hcond with h | h | h
      · simp [hp] at h
      · simp [hp] at h
      · simp [hflag] at h
    · exfalso
      simp [hp] at hother
    · rw [heq]
      refine ⟨_, rfl, hflag, ?_⟩
      simp [countCreateSwapchainCalls, List.countP_cons]

/-- Witness for C4's theorem: at the initial state with a suboptimal
present result, the tick returns normally with the flag clear and exactly
one rebuild. -/
theorem presentResultHandling_witness :
    ∃ s2, (drawFrame initState
      { resizeEvent := false, acquireResult := VkResult.success,
        imageIndex := 0, submitOk := true,
        presentResult := VkResult.suboptimalKHR,
        acquireExtents := [], presentExtents := [⟨640, 480⟩] }).2 =
        Except.ok s2 ∧
      s2.framebufferResized = false ∧
      countCreateSwapchainCalls (drawFrame initState
        { resizeEvent := false, acquireResult := VkResult.success,
          imageIndex := 0, submitOk := true,
          presentResult := VkResult.suboptimalKHR,
          acquireExtents := [], presentExtents := [⟨640, 480⟩] }).1 = 1 :=
  (presentResultHandling initState
    { resizeEvent := false, acquireResult := VkResult.success,
      imageIndex := 0, submitOk := true,
      presentResult := VkResult.suboptimalKHR,
      acquireExtents := [], presentExtents := [⟨640, 480⟩] }
    (by decide) (Or.inl rfl) rfl).1 (Or.inr (Or.inl rfl))
    [Event.getFramebufferSize ⟨640, 480⟩, Event.deviceWaitIdle,
     Event.destroyFramebuffers, Event.destroyImageViews,
     Event.destroySwapchain, Event.createSwapchain ⟨640, 480⟩,
     Event.createImageViews, Event.createFramebuffers] ⟨640, 480⟩ rfl

/-- C5 counterexample: a tick with a suboptimal acquire, a success present
result and a clear resize flag proceeds through recording, submission and
presentation but performs no swapchain rebuild after presenting — the
suboptimal acquire outcome is not remembered, contradicting the claim that
a rebuild is then performed. -/
theorem suboptimalAcquire_cex :
    countPresentCalls (drawFrame initState
      { resizeEvent := false, acquireResult := VkResult.suboptimalKHR,
        imageIndex := 0, submitOk := true,
        presentResult := VkResult.success,
        acquireExtents := [], presentExtents := [] }).1 = 1 ∧
    countCreateSwapchainCalls (drawFrame initState
      { resizeEvent := false, acquireResult := VkResult.suboptimalKHR,
        imageIndex := 0, submitOk := true,
        presentResult := VkResult.success,
        acquireExtents := [], presentExtents := [] }).1 = 0 := by
  decide

/-- C5 (amended): a tick whose acquire reports a suboptimal swapchain
accepts the image and proceeds through recording, submission and
presentation; a rebuild then happens after presentation only when the
present result itself is out-of-date or suboptimal or the sticky resize
flag is set — the suboptimal acquire outcome alone does not schedule a
rebuild (on a success present with the flag clear, no rebuild occurs). -/
theorem suboptimalAcquireHandling (s : FrameState) (t : TickInput)
    (hf : s.fences s.currentFrame ≠ FenceState.unsignaled)
    (hacq : t.acquireResult = VkResult.suboptimalKHR)
    (hsub : t.submitOk = true) :
    countRecordCalls (drawFrame s t).1 = 1 ∧
    countSubmitCalls (drawFrame s t).1 = 1 ∧
    countPresentCalls (drawFrame s t).1 = 1 ∧
    ((t.presentResult = VkResult.success ∧ s.framebufferResized = false) →
      countCreateSwapchainCalls (drawFrame s t).1 = 0) ∧
    ((t.presentResult = VkResult.errorOutOfDateKHR ∨
        t.presentResult = VkResult.suboptimalKHR ∨
        s.framebufferResized = true) →
      ∀ revs ex, recreateSwapChain t.presentExtents = some (revs, ex) →
        countCreateSwapchainCalls (drawFrame s t).1 = 1) := by
  rcases drawFrame_path s t hf with
    ⟨revs', ex', ha, hrec', heq⟩ | ⟨ha, hrec', heq⟩ | ⟨ha, heq⟩ |
    ⟨ha, hsub', heq⟩ | ⟨revs', ex', ha, hsub', hpr, hrec', heq⟩ |
    ⟨ha, hsub', hpr, hrec', heq⟩ | ⟨ha, hsub', hp, hflag, heq⟩ |
    ⟨ha, hsub', hp, hflag, heq⟩
  · simp [hacq] at ha
  · simp [hacq] at ha
  · simp [hacq] at ha
  · rw [hsub] at hsub'; cases hsub'
  · obtain ⟨-, -, c3, -, -, c6, c7, -, c9⟩ :=
      recreateSwapChain_counts _ _ _ hrec'
    rw [heq]
    refine ⟨?_, ?_, ?_, fun hsucc => ?_, fun _ revs2 ex2 hrec2 => ?_⟩
    · simp only [countRecordCalls] at c6 ⊢
      simp [List.countP_cons, c6]
    · simp only [countSubmitCalls] at c3 ⊢
      simp [List.countP_cons, c3]
    · simp only [countPresentCalls] at c7 ⊢
      simp [List.countP_cons, c7]
    · exfalso
      rcases hpr with h | h | h
      · simp [hsucc.1] at h
      · simp [hsucc.1] at h
      · simp [hsucc.2] at h
    · simp only [countCreateSwapchainCalls] at c9 ⊢
      simp [List.countP_cons, c9]
  · refine ⟨?_, ?_, ?_, fun hsucc => ?_, fun _ revs2 ex2 hrec2 => ?_⟩ <;>
      rw [heq]
    · simp [countRecordCalls, List.countP_cons]
    · simp [countSubmitCalls, List.countP_cons]
    · simp [countPresentCalls, List.countP_cons]
    · exfalso
      rcases hpr with h | h | h
      · simp [hsucc.1] at h
      · simp [hsucc.1] at h
      · simp [hsucc.2] at h
    · rw [hrec2] at hrec'; cases hrec'
  · refine ⟨?_, ?_, ?_, fun hsucc => ?_, fun hcond _ _ _ => ?_⟩ <;>
      rw [heq]
    · simp [countRecordCalls, List.countP_cons]
    · simp [countSubmitCalls, List.countP_cons]
    · simp [countPresentCalls, List.countP_cons]
    · exfalso
      simp [hp] at hsucc
    · exfalso
      rcases hcond with h | h | h
      · simp [hp] at h
      · simp [hp] at h
      · simp [hflag] at h
  · refine ⟨?_, ?_, ?_, fun _ => ?_, fun hcond _ _ _ => ?_⟩ <;>
      rw [heq]
    · simp [countRecordCalls, List.countP_cons]
    · simp [countSubmitCalls, List.countP_cons]
    · simp [countPresentCalls, List.countP_cons]
    · simp [countCreateSwapchainCalls, List.countP_cons]
    · exfalso
      rcases hcond with h | h | h
      · simp [hp] at h
      · simp [hp] at h
      · simp [hflag] at h

/-- Witness for C5's theorem: a concrete suboptimal-acquire tick records,
submits and presents exactly once and, with a success present and a clear
flag, performs no rebuild. -/
theorem suboptimalAcquireHandling_witness :
    countPresentCalls (drawFrame initState
      { resizeEvent := false, acquireResult := VkResult.suboptimalKHR,
        imageIndex := 2, submitOk := true,
        presentResult := VkResult.success,
        acquireExtents := [], presentExtents := [] }).1 = 1 ∧
    countCreateSwapchainCalls (drawFrame initState
      { resizeEvent := false, acquireResult := VkResult.suboptimalKHR,
        imageIndex := 2, submitOk := true,
        presentResult := VkResult.success,
        acquireExtents := [], presentExtents := [] }).1 = 0 := by
  have h := suboptimalAcquireHandling initState
    { resizeEvent := false, acquireResult := VkResult.suboptimalKHR,
      imageIndex := 2, submitOk := true,
      presentResult := VkResult.success,
      acquireExtents := [], presentExtents := [] }
    (by decide) rfl rfl
  exact ⟨h.2.2.1, h.2.2.2.1 ⟨rfl, rfl⟩⟩

/-- C6: a tick resets the current slot's in-flight fence exactly when the
acquire returns success or suboptimal; on an out-of-date acquire the fence
is left signaled (and the slot unchanged), so the next tick's wait on that
slot returns without blocking; on a fatal acquire the fence is likewise
never reset and the tick throws. -/
theorem fenceResetDiscipline (s : FrameState) (t : TickInput)
    (hf : s.fences s.currentFrame ≠ FenceState.unsignaled) :
    (countResetFenceCalls (drawFrame s t).1 = 1 ↔
      (t.acquireResult = VkResult.success ∨
        t.acquireResult = VkResult.suboptimalKHR)) ∧
    (t.acquireResult = VkResult.errorOutOfDateKHR →
      countResetFenceCalls (drawFrame s t).1 = 0 ∧
      ∀ s2, (drawFrame s t).2 = Except.ok s2 →
        s2.fences s.currentFrame = FenceState.signaled ∧
        s2.currentFrame = s.currentFrame ∧
        ∀ t2, ((drawFrame (pollEvents s2 t2.resizeEvent) t2).1).head? =
          some (Event.waitFence s.currentFrame false)) ∧
    (t.acquireResult = VkResult.errorOther →
      countResetFenceCalls (drawFrame s t).1 = 0 ∧
      (drawFrame s t).2 = Except.error VkError.acquireFailed) := by
  rcases drawFrame_path s t hf with
    ⟨revs', ex', ha, hrec', heq⟩ | ⟨ha, hrec', heq⟩ | ⟨ha, heq⟩ |
    ⟨ha, hsub', heq⟩ | ⟨revs', ex', ha, hsub', hpr, hrec', heq⟩ |
    ⟨ha, hsub', hpr, hrec', heq⟩ | ⟨ha, hsub', hp, hflag, heq⟩ |
    ⟨ha, hsub', hp, hflag, heq⟩
  · obtain ⟨-, -, -, c4, -, -, -, -, -⟩ :=
      recreateSwapChain_counts _ _ _ hrec'
    have hzero : countResetFenceCalls (drawFrame s t).1 = 0 := by
      rw [heq]
      simp only [countResetFenceCalls] at c4 ⊢
      simp [List.countP_cons, c4]
    refine ⟨?_, fun _ => ⟨hzero, fun s2 h2 => ?_⟩, fun hother => ?_⟩
    · rw [hzero]
      constructor
      · intro h01; cases h01
      · intro hc
        rcases hc with hc | hc <;> simp [ha] at hc
    · rw [heq] at h2
      simp only [Except.ok.injEq] at h2
      subst h2
      refine ⟨setFence_same _ _ _, rfl, fun t2 => ?_⟩
      have hsig2 : (pollEvents
          { s with fences := setFence s.fences s.currentFrame FenceState.signaled }
          t2.resizeEvent).fences
          ((pollEvents
            { s with fences := setFence s.fences s.currentFrame FenceState.signaled }
            t2.resizeEvent).currentFrame) = FenceState.signaled := by
        rw [pollEvents_fences, pollEvents_currentFrame]
        exact setFence_same _ _ _
      have hhead := drawFrame_head _ t2 hsig2
      rw [pollEvents_currentFrame] at hhead
      exact hhead
    · simp [ha] at hother
  · have hzero : countResetFenceCalls (drawFrame s t).1 = 0 := by
      rw [heq]
      simp [countResetFenceCalls, List.countP_cons]
    refine ⟨?_, fun _ => ⟨hzero, fun s2 h2 => ?_⟩, fun hother => ?_⟩
    · rw [hzero]
      constructor
      · intro h01; cases h01
      · intro hc
        rcases hc with hc | hc <;> simp [ha] at hc
    · rw [heq] at h2; cases h2
    · simp [ha] at hother
  · have hzero : countResetFenceCalls (drawFrame s t).1 = 0 := by
      rw [heq]
      simp [countResetFenceCalls, List.countP_cons]
    refine ⟨?_, fun hood => ?_, fun _ => ⟨hzero, by rw [heq]⟩⟩
    · rw [hzero]
      constructor
      · intro h01; cases h01
      · intro hc
        rcases hc with hc | hc <;> simp [ha] at hc
    · simp [ha] at hood
  · have hone : countResetFenceCalls (drawFrame s t).1 = 1 := by
      rw [heq]
      simp [countResetFenceCalls, List.countP_cons]
    refine ⟨⟨fun _ => ha, fun _ => hone⟩, fun hood => ?_, fun hother => ?_⟩
    · rcases ha with h | h <;> simp [hood] at h
    · rcases ha with h | h <;> simp [hother] at h
  · have hone : countResetFenceCalls (drawFrame s t).1 = 1 := by
      rw [heq]
      obtain ⟨-, -, -, c4, -, -, -, -, -⟩ :=
        recreateSwapChain_counts _ _ _ hrec'
      simp only [countResetFenceCalls] at c4 ⊢
      simp [List.countP_cons, c4]
    refine ⟨⟨fun _ => ha, fun _ => hone⟩, fun hood => ?_, fun hother => ?_⟩
    · rcases ha with h | h <;> simp [hood] at h
    · rcases ha with h | h <;> simp [hother] at h
  · have hone : countResetFenceCalls (drawFrame s t).1 = 1 := by
      rw [heq]
      simp [countResetFenceCalls, List.countP_cons]
    refine ⟨⟨fun _ => ha, fun _ => hone⟩, fun hood => ?_, fun hother => ?_⟩
    · rcases ha with h | h <;> simp [hood] at h
    · rcases ha with h | h <;> simp [hother] at h
  · have hone : countResetFenceCalls (drawFrame s t).1 = 1 := by
      rw [heq]
      simp [countResetFenceCalls, List.countP_cons]
    refine ⟨⟨fun _ => ha, fun _ => hone⟩, fun hood => ?_, fun hother => ?_⟩
    · rcases ha with h | h <;> simp [hood] at h
    · rcases ha with h | h <;> simp [hother] at h
  · have hone : countResetFenceCalls (drawFrame s t).1 = 1 := by
      rw [heq]
      simp [countResetFenceCalls, List.countP_cons]
    refine ⟨⟨fun _ => ha, fun _ => hone⟩, fun hood => ?_, fun hother => ?_⟩
    · rcases ha with h | h <;> simp [hood] at h
    · rcases ha with h | h <;> simp [hother] at h

/-- Witness for C6's theorem: at the initial state an out-of-date acquire
resets no fence, and the very next tick's wait on slot 0 is non-blocking. -/
theorem fenceResetDiscipline_witness :
    countResetFenceCalls (drawFrame initState
      { resizeEvent := false, acquireResult := VkResult.errorOutOfDateKHR,
        imageIndex := 0, submitOk := true,
        presentResult := VkResult.success,
        acquireExtents := [⟨800, 600⟩], presentExtents := [] }).1 = 0 := by
  have h := fenceResetDiscipline initState
    { resizeEvent := false, acquireResult := VkResult.errorOutOfDateKHR,
      imageIndex := 0, submitOk := true,
      presentResult := VkResult.success,
      acquireExtents := [⟨800, 600⟩], presentExtents := [] }
    (by decide)
  exact (h.2.1 rfl).1

end Vulkan
